import Mathlib

/-!
A shallow embedding of ohm's frame renderer core, translated from
`crates/ohm-core/src/renderer/batcher.rs` and `crates/ohm-core/src/texture.rs`.

Modelling conventions:
* `f32` scalars are modelled as `ℚ` (exact rational arithmetic standing in for
  floating point; all operations the embedded code performs on them — add, sub,
  mul, div, min, max, floor, ceil, trunc and comparisons — are exact).
* `u32`/`u64` counters and indices are modelled as `ℕ` (the code never comes
  close to wraparound; casts that saturate in Rust are modelled saturating).
* Rust `Vec` push/iteration is modelled by `List` append at the tail; the
  transform stack (`Vec<Affine2>` with `push`/`pop`/`last`) is modelled as a
  `List` whose head is the top of the stack.
* Vector paths: `lyon` tessellation is external to the repository and
  deterministic per `(path, options)`, and `PathCache` only memoizes it, so a
  path-draw command is embedded carrying the `Mesh` its path tessellates to.
* Pixel payloads (`Vec<u8>` in `ImageData`) do not influence any control flow
  in the embedded code and are elided from `ImageData`.
-/

namespace Ohm

abbrev Scalar := ℚ

/-- Truncation toward zero of a rational, as `f32::trunc`. -/
def ratTrunc (q : Scalar) : ℤ :=
  if 0 ≤ q then ⌊q⌋ else -⌊-q⌋

/-- Saturating cast of a rational to `u32`, as Rust `as u32` on `f32`. -/
def ratToU32 (q : Scalar) : ℕ :=
  if q < 0 then 0 else min (ratTrunc q).toNat (2 ^ 32 - 1)

/-- Saturating cast of a rational to `u8`, as Rust `as u8` on `f32`. -/
def ratToU8 (q : Scalar) : ℕ :=
  if q < 0 then 0 else min (ratTrunc q).toNat 255

/-- `glam::Vec2` with exact scalars. -/
structure Vec2 where
  x : Scalar
  y : Scalar
deriving DecidableEq, Repr

namespace Vec2

def ZERO : Vec2 := ⟨0, 0⟩

def ONE : Vec2 := ⟨1, 1⟩

def splat (v : Scalar) : Vec2 := ⟨v, v⟩

def add (a b : Vec2) : Vec2 := ⟨a.x + b.x, a.y + b.y⟩

def sub (a b : Vec2) : Vec2 := ⟨a.x - b.x, a.y - b.y⟩

def neg (a : Vec2) : Vec2 := ⟨-a.x, -a.y⟩

/-- Componentwise product, as `glam`'s `Mul<Vec2> for Vec2`. -/
def mul (a b : Vec2) : Vec2 := ⟨a.x * b.x, a.y * b.y⟩

/-- Componentwise quotient, as `glam`'s `Div<Vec2> for Vec2`. -/
def div (a b : Vec2) : Vec2 := ⟨a.x / b.x, a.y / b.y⟩

def scale (a : Vec2) (s : Scalar) : Vec2 := ⟨a.x * s, a.y * s⟩

def minV (a b : Vec2) : Vec2 := ⟨min a.x b.x, min a.y b.y⟩

def maxV (a b : Vec2) : Vec2 := ⟨max a.x b.x, max a.y b.y⟩

def floorV (a : Vec2) : Vec2 := ⟨(⌊a.x⌋ : ℤ), (⌊a.y⌋ : ℤ)⟩

def ceilV (a : Vec2) : Vec2 := ⟨(⌈a.x⌉ : ℤ), (⌈a.y⌉ : ℤ)⟩

def trunc (a : Vec2) : Vec2 := ⟨(ratTrunc a.x : ℤ), (ratTrunc a.y : ℤ)⟩

/-- `glam::Vec2::fract`: `self - self.trunc()`. -/
def fract (a : Vec2) : Vec2 := sub a (trunc a)

end Vec2

instance : Add Vec2 := ⟨Vec2.add⟩

instance : Sub Vec2 := ⟨Vec2.sub⟩

instance : Neg Vec2 := ⟨Vec2.neg⟩

instance : Mul Vec2 := ⟨Vec2.mul⟩

instance : Div Vec2 := ⟨Vec2.div⟩

instance : HMul Vec2 Scalar Vec2 := ⟨Vec2.scale⟩

/-- `glam::UVec2` (`u32` components as `ℕ`). -/
structure UVec2 where
  x : ℕ
  y : ℕ
deriving DecidableEq, Repr

namespace UVec2

def ZERO : UVec2 := ⟨0, 0⟩

def splat (v : ℕ) : UVec2 := ⟨v, v⟩

def add (a b : UVec2) : UVec2 := ⟨a.x + b.x, a.y + b.y⟩

/-- `u32` subtraction; the embedded code only subtracts `min ≤ max` corners. -/
def sub (a b : UVec2) : UVec2 := ⟨a.x - b.x, a.y - b.y⟩

def maxV (a b : UVec2) : UVec2 := ⟨max a.x b.x, max a.y b.y⟩

def maxElement (a : UVec2) : ℕ := max a.x a.y

def scale (a : UVec2) (s : ℕ) : UVec2 := ⟨a.x * s, a.y * s⟩

def asVec2 (a : UVec2) : Vec2 := ⟨(a.x : ℚ), (a.y : ℚ)⟩

end UVec2

instance : Add UVec2 := ⟨UVec2.add⟩

instance : Sub UVec2 := ⟨UVec2.sub⟩

instance : HMul UVec2 ℕ UVec2 := ⟨UVec2.scale⟩

/-- `Vec2 as_uvec2` (Rust `f32 as u32` saturating cast per component). -/
def Vec2.asUVec2 (a : Vec2) : UVec2 := ⟨ratToU32 a.x, ratToU32 a.y⟩

/-- `glam::Vec4` with exact scalars. -/
structure Vec4 where
  x : Scalar
  y : Scalar
  z : Scalar
  w : Scalar
deriving DecidableEq, Repr

def Vec4.ZERO : Vec4 := ⟨0, 0, 0, 0⟩

/-- `ohm_core::Color` (linear sRGB, premultiplied alpha). -/
structure Color where
  r : Scalar
  g : Scalar
  b : Scalar
  a : Scalar
deriving DecidableEq, Repr

namespace Color

def rgba (r g b a : Scalar) : Color := ⟨r, g, b, a⟩

def rgb (r g b : Scalar) : Color := rgba r g b 1

def WHITE : Color := rgb 1 1 1

def BLACK : Color := rgb 0 0 0

/-- `Color::TRANSPAENT` (name kept as in the source). -/
def TRANSPAENT : Color := rgba 0 0 0 0

def toVec4 (c : Color) : Vec4 := ⟨c.r, c.g, c.b, c.a⟩

end Color

/-- `glam::Affine2`: 2×2 linear part (`xAxis`, `yAxis` columns) plus translation. -/
structure Affine2 where
  xAxis : Vec2
  yAxis : Vec2
  translation : Vec2
deriving DecidableEq, Repr

namespace Affine2

def IDENTITY : Affine2 := ⟨⟨1, 0⟩, ⟨0, 1⟩, ⟨0, 0⟩⟩

/-- Apply only the linear (`matrix2`) part. -/
def linear (t : Affine2) (p : Vec2) : Vec2 :=
  ⟨t.xAxis.x * p.x + t.yAxis.x * p.y, t.xAxis.y * p.x + t.yAxis.y * p.y⟩

def transformPoint2 (t : Affine2) (p : Vec2) : Vec2 :=
  t.linear p + t.translation

/-- `glam` affine composition: `(a * b).transform p = a.transform (b.transform p)`. -/
def mulA (a b : Affine2) : Affine2 :=
  ⟨a.linear b.xAxis, a.linear b.yAxis, a.transformPoint2 b.translation⟩

def fromTranslation (t : Vec2) : Affine2 := ⟨⟨1, 0⟩, ⟨0, 1⟩, t⟩

end Affine2

instance : Mul Affine2 := ⟨Affine2.mulA⟩

/-- `ohm_core::math::Rect` (`f32` corners). -/
structure Rect where
  min : Vec2
  max : Vec2
deriving DecidableEq, Repr

namespace Rect

def ZERO : Rect := ⟨Vec2.ZERO, Vec2.ZERO⟩

def size (r : Rect) : Vec2 := r.max - r.min

/-- Axis-aligned bounding rect of the four transformed corners. -/
def transform (r : Rect) (t : Affine2) : Rect :=
  let a := t.transformPoint2 r.min
  let b := t.transformPoint2 ⟨r.min.x, r.max.y⟩
  let c := t.transformPoint2 ⟨r.max.x, r.min.y⟩
  let d := t.transformPoint2 r.max
  ⟨(((a.minV b).minV c).minV d), (((a.maxV b).maxV c).maxV d)⟩

def union (r o : Rect) : Rect := ⟨r.min.minV o.min, r.max.maxV o.max⟩

end Rect

/-- `ohm_core::math::URect` (`u32` corners). -/
structure URect where
  min : UVec2
  max : UVec2
deriving DecidableEq, Repr

def URect.ZERO : URect := ⟨UVec2.ZERO, UVec2.ZERO⟩

def URect.size (r : URect) : UVec2 := r.max - r.min

/-- `ohm_core::texture::TextureId` (`u64` as `ℕ`). -/
structure TextureId where
  val : ℕ
deriving DecidableEq, Repr

/-- `ohm_core::text::SubpixelBin`: quarter-pixel quantized fractional offset. -/
structure SubpixelBin where
  x : ℕ
  y : ℕ
deriving DecidableEq, Repr

def SubpixelBin.new (pos : Vec2) : SubpixelBin :=
  let v := (pos.fract * (4 : Scalar)).floorV
  ⟨ratToU8 v.x, ratToU8 v.y⟩

/-- `ohm_core::text::GlyphKey`. `size` stands for the `f32` bit pattern
(`size.to_bits()`), which is injective on the values seen here. -/
structure GlyphKey where
  font : ℕ
  glyph : ℕ
  size : Scalar
  subpixelBin : SubpixelBin
deriving DecidableEq, Repr

/-- `ohm_core::image::ImageFormat`. -/
inductive ImageFormat where
  | srgba8
  | gray8
deriving DecidableEq, Repr

/-- `ohm_core::texture::MipmapMode`. -/
inductive MipmapMode where
  | disabled
  | enabled
deriving DecidableEq, Repr

/-- `ohm_core::image::ImageData` (pixel payload elided, see module comment). -/
structure ImageData where
  format : ImageFormat
  size : UVec2
deriving DecidableEq, Repr

/-- `ohm_core::texture::TextureCommand`. -/
inductive TextureCommand where
  | createStatic (id : TextureId) (data : ImageData) (mipmapMode : MipmapMode)
  | createDynamic (id : TextureId) (format : ImageFormat) (size : UVec2)
      (mipmapMode : MipmapMode)
  | copy (srcId : TextureId) (dstId : TextureId) (srcRect : URect) (dstRect : URect)
  | write (dstId : TextureId) (dstRect : URect) (data : ImageData)
  | free (id : TextureId)
deriving DecidableEq, Repr

/-- `ohm_core::texture::AllocatedImage`. -/
structure AllocatedImage where
  texture : TextureId
  textureSize : UVec2
  rect : URect
deriving DecidableEq, Repr

/-- `ohm_core::texture::AllocatedGlyph`. -/
structure AllocatedGlyph where
  texture : TextureId
  format : ImageFormat
  textureSize : UVec2
  rect : URect
  offset : Vec2
deriving DecidableEq, Repr

/-- `ohm_core::CornerRadii`. -/
structure CornerRadii where
  topLeft : Scalar
  topRight : Scalar
  bottomRight : Scalar
  bottomLeft : Scalar
deriving DecidableEq, Repr

def CornerRadii.default : CornerRadii := ⟨0, 0, 0, 0⟩

def CornerRadii.toVec4 (c : CornerRadii) : Vec4 :=
  ⟨c.topLeft, c.topRight, c.bottomRight, c.bottomLeft⟩

/-- `ohm_core::Border`. -/
structure Border where
  color : Color
  width : Scalar
deriving DecidableEq, Repr

/-- `ohm_core::Shadow`. -/
structure Shadow where
  blurRadius : Scalar
  spreadRadius : Scalar
  offset : Vec2
  color : Color
deriving DecidableEq, Repr

/-- `ohm_core::Scissor`. -/
structure Scissor where
  pos : Vec2
  size : Vec2
  cornerRadii : CornerRadii
deriving DecidableEq, Repr

/-- `ohm_core::FillImage`. -/
structure FillImage where
  image : ℕ
  tint : Color
  clipRect : Option Rect
deriving DecidableEq, Repr

/-- `ohm_core::Fill`. -/
inductive Fill where
  | solid (color : Color)
  | image (fill : FillImage)
deriving DecidableEq, Repr

/-- `ohm_core::ClearRect`. -/
structure ClearRect where
  pos : Vec2
  size : Vec2
  color : Color
deriving DecidableEq, Repr

/-- `ohm_core::DrawRect`. -/
structure DrawRect where
  pos : Vec2
  size : Vec2
  fill : Fill
  cornerRadii : CornerRadii
  border : Option Border
  shadow : Option Shadow
deriving DecidableEq, Repr

/-- `ohm_core::DrawGlyph`. -/
structure DrawGlyph where
  pos : Vec2
  size : Scalar
  font : ℕ
  glyph : ℕ
  color : Color
deriving DecidableEq, Repr

/-- `ohm_core::renderer::batcher::Vertex`. -/
structure Vertex where
  pos : Vec2
  localPos : Vec2
  tex : Vec2
  color : Vec4
  instanceId : ℕ
deriving DecidableEq, Repr

/-- `ohm_core::renderer::path_cache::Mesh`. -/
structure Mesh where
  boundingRect : Option Rect
  vertices : List Vertex
  indices : List ℕ
deriving DecidableEq, Repr

/-- `ohm_core::FillPath`, with `(path, options)` embedded as the `Mesh` the
external tessellator produces for them (see module comment). -/
structure FillPath where
  pos : Vec2
  mesh : Mesh
  fill : Fill
deriving DecidableEq, Repr

/-- `ohm_core::StrokePath`, embedded like `FillPath`. -/
structure StrokePath where
  pos : Vec2
  mesh : Mesh
  fill : Fill
deriving DecidableEq, Repr

/-- `ohm_core::Command`. The `DrawLayer` payload is inlined into the
constructor so that recursion over command trees is structural. -/
inductive Command where
  | clearRect (rect : ClearRect)
  | drawRect (rect : DrawRect)
  | drawGlyph (glyph : DrawGlyph)
  | drawLayer (commands : List Command) (tint : Color) (scissor : Option Scissor)
      (transform : Affine2)
  | fillPath (path : FillPath)
  | strokePath (path : StrokePath)

/-- `ohm_core::DrawList`. -/
structure DrawList where
  surface : ℕ
  commands : List Command

def INSTANCE_FILL : ℕ := 4294967295

def INSTANCE_FILL_GRAY : ℕ := 4294967294

/-- `ohm_core::renderer::batcher::Quad` (all-zero `Default` as in the source). -/
structure Quad where
  min : Vec2
  max : Vec2
  localMin : Vec2
  localMax : Vec2
  texMin : Vec2
  texMax : Vec2
  color : Vec4
  instanceId : ℕ
deriving DecidableEq, Repr

def Quad.default : Quad :=
  ⟨Vec2.ZERO, Vec2.ZERO, Vec2.ZERO, Vec2.ZERO, Vec2.ZERO, Vec2.ZERO, Vec4.ZERO, 0⟩

/-- `ohm_core::renderer::batcher::Instance`. -/
structure Instance where
  cornerRadii : Vec4
  borderColor : Vec4
  shadowColor : Vec4
  shadowOffset : Vec2
  size : Vec2
  borderWidth : Scalar
  shadowBlurRadius : Scalar
  shadowSpreadRadius : Scalar
deriving DecidableEq, Repr

/-- `ohm_core::renderer::batcher::Target`. -/
inductive Target where
  | surface (id : ℕ)
  | intermediate (id : ℕ)
deriving DecidableEq, Repr

/-- `ohm_core::renderer::batcher::Source`. -/
inductive Source where
  | white
  | texture (id : TextureId)
  | intermediate (id : ℕ)
deriving DecidableEq, Repr

/-- `ohm_core::renderer::batcher::Intermediate`. -/
structure Intermediate where
  size : UVec2
  msaa : Bool
deriving DecidableEq, Repr

/-- `ohm_core::renderer::batcher::Batch` (`Range<u32>` fields as start/end pairs). -/
structure Batch where
  clear : Bool
  msaaResolve : Bool
  target : Target
  source : Source
  indexStart : ℕ
  indexEnd : ℕ
  vertexStart : ℕ
  vertexEnd : ℕ
  instanceBufferId : ℕ
deriving DecidableEq, Repr

/-- Read-only view of the texture cache that the batcher consults
(`TextureCache::get_glyph` / `TextureCache::get_image`). -/
structure TextureCacheView where
  getGlyph : GlyphKey → Option AllocatedGlyph
  getImage : ℕ → Option AllocatedImage

/-- `ohm_core::renderer::batcher::Batcher` (the mutable state behind its
borrowed scratch buffers, plus its own fields). -/
structure Batcher where
  vertices : List Vertex
  indices : List ℕ
  instances : List Instance
  batches : List Batch
  transformStack : List Affine2
  intermediates : List Intermediate
  curClear : Bool
  curTarget : Target
  curSource : Source
  maxInstancesPerBuffer : ℕ
  curInstanceBufferId : ℕ
  lastIndex : ℕ
  lastVertex : ℕ
deriving DecidableEq, Repr

/-- `Batcher::new` over a cleared scratch buffer. -/
def Batcher.new (maxInstancesPerBuffer : ℕ) : Batcher where
  vertices := []
  indices := []
  instances := []
  batches := []
  transformStack := []
  intermediates := []
  curClear := false
  curTarget := Target.intermediate 0
  curSource := Source.white
  maxInstancesPerBuffer := maxInstancesPerBuffer
  curInstanceBufferId := 0
  lastIndex := 0
  lastVertex := 0

/-- `Batcher::flush`. -/
def Batcher.flush (b : Batcher) : Batcher :=
  if b.indices.length ≤ b.lastIndex then b
  else
    { b with
      batches := b.batches ++
        [{ clear := b.curClear
           msaaResolve := false
           target := b.curTarget
           source := b.curSource
           indexStart := b.lastIndex
           indexEnd := b.indices.length
           vertexStart := b.lastVertex
           vertexEnd := b.vertices.length
           instanceBufferId := b.curInstanceBufferId }]
      lastIndex := b.indices.length
      lastVertex := b.vertices.length }

/-- `Batcher::set_source`. -/
def Batcher.setSource (source : Source) (b : Batcher) : Batcher :=
  let b := if b.curSource ≠ source then b.flush else b
  { b with curSource := source }

/-- `Batcher::set_target`. -/
def Batcher.setTarget (target : Target) (b : Batcher) : Batcher :=
  let b := if b.curTarget ≠ target then b.flush else b
  { b with curTarget := target }

/-- `Batcher::set_clear`. -/
def Batcher.setClear (clear : Bool) (b : Batcher) : Batcher :=
  let b := if b.curClear ≠ clear then b.flush else b
  { b with curClear := clear }

/-- `Batcher::push_transform` (composes with the current top). -/
def Batcher.pushTransform (transform : Affine2) (b : Batcher) : Batcher :=
  let transform :=
    match b.transformStack.head? with
    | some v => v * transform
    | none => transform
  { b with transformStack := transform :: b.transformStack }

/-- `Batcher::pop_transform` / raw `transform_stack.pop()`. -/
def Batcher.popTransform (b : Batcher) : Batcher :=
  { b with transformStack := b.transformStack.tail }

/-- Raw `transform_stack.push(t)` (no composition), as used by
`draw_intermediate_layer`. -/
def Batcher.pushRaw (t : Affine2) (b : Batcher) : Batcher :=
  { b with transformStack := t :: b.transformStack }

/-- `Batcher::alloc_intermediate`; returns the fresh `IntermediateId`. -/
def Batcher.allocIntermediate (size : UVec2) (msaa : Bool) (b : Batcher) :
    Batcher × ℕ :=
  ({ b with intermediates := b.intermediates ++ [⟨size, msaa⟩] },
   b.intermediates.length)

/-- `Batcher::add_vertex`; returns the vertex index. -/
def Batcher.addVertex (v : Vertex) (b : Batcher) : Batcher × ℕ :=
  let v :=
    match b.transformStack.head? with
    | some t => { v with pos := t.transformPoint2 v.pos }
    | none => v
  ({ b with vertices := b.vertices ++ [v] }, b.vertices.length)

/-- `Batcher::add_instance`; returns the instance id. -/
def Batcher.addInstance (inst : Instance) (b : Batcher) : Batcher × ℕ :=
  let b :=
    if b.instances ≠ [] ∧ b.instances.length % b.maxInstancesPerBuffer = 0 then
      let b := b.flush
      { b with curInstanceBufferId := b.curInstanceBufferId + 1 }
    else b
  ({ b with instances := b.instances ++ [inst] }, b.instances.length)

/-- `Batcher::add_quad`. -/
def Batcher.addQuad (q : Quad) (b : Batcher) : Batcher :=
  let (b, a) := b.addVertex
    { pos := ⟨q.min.x, q.min.y⟩, localPos := ⟨q.localMin.x, q.localMin.y⟩,
      tex := ⟨q.texMin.x, q.texMin.y⟩, color := q.color, instanceId := q.instanceId }
  let (b, bIdx) := b.addVertex
    { pos := ⟨q.max.x, q.min.y⟩, localPos := ⟨q.localMax.x, q.localMin.y⟩,
      tex := ⟨q.texMax.x, q.texMin.y⟩, color := q.color, instanceId := q.instanceId }
  let (b, c) := b.addVertex
    { pos := ⟨q.max.x, q.max.y⟩, localPos := ⟨q.localMax.x, q.localMax.y⟩,
      tex := ⟨q.texMax.x, q.texMax.y⟩, color := q.color, instanceId := q.instanceId }
  let (b, d) := b.addVertex
    { pos := ⟨q.min.x, q.max.y⟩, localPos := ⟨q.localMin.x, q.localMax.y⟩,
      tex := ⟨q.texMin.x, q.texMax.y⟩, color := q.color, instanceId := q.instanceId }
  { b with indices := b.indices ++ [a, bIdx, c, c, d, a] }

/-- `Batcher::get_fill`. The `clip_rect` arithmetic mixes the image's `u32`
atlas rect with the `f32` clip rect; it is carried out here over `ℚ`. -/
def Batcher.getFill (env : TextureCacheView) (fill : Fill) :
    Color × Source × Vec2 × Vec2 :=
  match fill with
  | Fill.solid color => (color, Source.white, Vec2.ZERO, Vec2.ZERO)
  | Fill.image fill =>
    match env.getImage fill.image with
    | some image =>
      let (texMin, texMax) :=
        match fill.clipRect with
        | some clip =>
          ((image.rect.min.asVec2 + clip.min).minV image.rect.max.asVec2,
           (image.rect.min.asVec2 + clip.max).minV image.rect.max.asVec2)
        | none => (image.rect.min.asVec2, image.rect.max.asVec2)
      let texMin := texMin / image.textureSize.asVec2
      let texMax := texMax / image.textureSize.asVec2
      (fill.tint, Source.texture image.texture, texMin, texMax)
    | none => (fill.tint, Source.white, Vec2.ZERO, Vec2.ZERO)

/-- `Batcher::cmd_clear_rect`. -/
def Batcher.cmdClearRect (rect : ClearRect) (b : Batcher) : Batcher :=
  let b := b.setClear true
  let b := b.setSource Source.white
  b.addQuad
    { Quad.default with
      min := rect.pos
      max := rect.pos + rect.size
      color := rect.color.toVec4
      instanceId := INSTANCE_FILL }

/-- `Batcher::cmd_draw_rect`. -/
def Batcher.cmdDrawRect (env : TextureCacheView) (rect : DrawRect) (b : Batcher) :
    Batcher :=
  let b := b.setClear false
  let (color, source, texMin, texMax) := Batcher.getFill env rect.fill
  let b := b.setSource source
  if rect.border = none ∧ rect.shadow = none ∧ rect.cornerRadii = CornerRadii.default
  then
    b.addQuad
      { min := rect.pos
        max := rect.pos + rect.size
        localMin := Vec2.ZERO
        localMax := Vec2.ZERO
        texMin := texMin
        texMax := texMax
        color := color.toVec4
        instanceId := INSTANCE_FILL }
  else
    let shadowOffset := (rect.shadow.map Shadow.offset).getD Vec2.ZERO
    let shadowBlurRadius := (rect.shadow.map Shadow.blurRadius).getD 0
    let shadowSpreadRadius := (rect.shadow.map Shadow.spreadRadius).getD 0
    let (b, instanceId) := b.addInstance
      { cornerRadii := rect.cornerRadii.toVec4
        borderColor := ((rect.border.map Border.color).getD Color.TRANSPAENT).toVec4
        shadowColor := ((rect.shadow.map Shadow.color).getD Color.TRANSPAENT).toVec4
        shadowOffset := shadowOffset
        size := rect.size
        borderWidth := (rect.border.map Border.width).getD 0
        shadowBlurRadius := shadowBlurRadius
        shadowSpreadRadius := shadowSpreadRadius }
    let rectMin := rect.pos
    let rectMax := rect.pos + rect.size
    let shadowRadius := Vec2.splat (shadowBlurRadius + shadowSpreadRadius)
    let shadowMin := rectMin - shadowRadius + shadowOffset
    let shadowMax := rectMax + shadowRadius + shadowOffset
    let min := shadowMin.minV rectMin
    let max := shadowMax.maxV rectMax
    let texSize := texMax - texMin
    let texMin := texMin - (rectMin - min) * texSize / rect.size
    let texMax := texMax + (max - rectMax) * texSize / rect.size
    b.addQuad
      { min := min
        max := max
        localMin := min - rect.pos
        localMax := max - rect.pos
        texMin := texMin
        texMax := texMax
        color := color.toVec4
        instanceId := instanceId }

/-- `Batcher::cmd_draw_glyph`. -/
def Batcher.cmdDrawGlyph (env : TextureCacheView) (glyph : DrawGlyph) (b : Batcher) :
    Batcher :=
  let b := b.setClear false
  let color := glyph.color
  let pos := glyph.pos
  let glyphKey : GlyphKey :=
    { font := glyph.font, glyph := glyph.glyph, size := glyph.size,
      subpixelBin := SubpixelBin.new pos }
  match env.getGlyph glyphKey with
  | none => b
  | some glyph =>
    let b := b.setSource (Source.texture glyph.texture)
    let texMin := glyph.rect.min.asVec2 / glyph.textureSize.asVec2
    let texMax := glyph.rect.max.asVec2 / glyph.textureSize.asVec2
    let pos := pos.trunc + glyph.offset
    let size := glyph.rect.size.asVec2
    let (color, instanceId) :=
      if glyph.format = ImageFormat.gray8 then (color, INSTANCE_FILL_GRAY)
      else (Color.WHITE, INSTANCE_FILL)
    b.addQuad
      { min := pos
        max := pos + size
        localMin := Vec2.ZERO
        localMax := Vec2.ZERO
        texMin := texMin
        texMax := texMax
        color := color.toVec4
        instanceId := instanceId }

/-- `Batcher::draw_mesh` (free function over the borrowed buffers). -/
def Batcher.drawMesh (origin : Vec2) (mesh : Mesh) (color : Color)
    (texMin texMax : Vec2) (b : Batcher) : Batcher :=
  match mesh.boundingRect with
  | none => b
  | some rect =>
    let texScale := (texMax - texMin) / rect.size
    let firstIdx := b.vertices.length
    let newVertices := mesh.vertices.map fun vertex =>
      let pos :=
        match b.transformStack.head? with
        | some transform => origin + transform.transformPoint2 vertex.pos
        | none => origin + vertex.pos
      { vertex with
        pos := pos
        tex := texMin + (vertex.pos - rect.min) * texScale
        color := color.toVec4 }
    let newIndices := mesh.indices.map fun index => index + firstIdx
    { b with vertices := b.vertices ++ newVertices, indices := b.indices ++ newIndices }

/-- `Batcher::cmd_fill_path`. -/
def Batcher.cmdFillPath (env : TextureCacheView) (path : FillPath) (b : Batcher) :
    Batcher :=
  let (color, source, texMin, texMax) := Batcher.getFill env path.fill
  let b := b.setSource source
  Batcher.drawMesh path.pos path.mesh color texMin texMax b

/-- `Batcher::cmd_stroke_path`. -/
def Batcher.cmdStrokePath (env : TextureCacheView) (path : StrokePath) (b : Batcher) :
    Batcher :=
  let (color, source, texMin, texMax) := Batcher.getFill env path.fill
  let b := b.setSource source
  Batcher.drawMesh path.pos path.mesh color texMin texMax b

mutual

/-- Bounding rect contributed by one command, part of
`Batcher::compute_bouding_rect` (source name kept, typo included). -/
def Batcher.commandBoudingRect (env : TextureCacheView) : Command → Option Rect
  | Command.clearRect rect => some ⟨rect.pos, rect.pos + rect.size⟩
  | Command.drawRect rect =>
    let shadowOffset := (rect.shadow.map Shadow.offset).getD Vec2.ZERO
    let shadowBlurRadius := (rect.shadow.map Shadow.blurRadius).getD 0
    let shadowSpreadRadius := (rect.shadow.map Shadow.spreadRadius).getD 0
    let shadowRadius := Vec2.splat (shadowBlurRadius + shadowSpreadRadius)
    let rectMin := rect.pos
    let rectMax := rect.pos + rect.size
    let shadowMin := rectMin - shadowRadius + shadowOffset
    let shadowMax := rectMax + shadowRadius + shadowOffset
    some ⟨shadowMin.minV rectMin, shadowMax.maxV rectMax⟩
  | Command.drawGlyph glyph =>
    let pos := glyph.pos
    let glyphKey : GlyphKey :=
      { font := glyph.font, glyph := glyph.glyph, size := glyph.size,
        subpixelBin := SubpixelBin.new pos }
    (env.getGlyph glyphKey).map fun glyph =>
      let pos := pos.trunc + glyph.offset
      let size := glyph.rect.size.asVec2
      ⟨pos, pos + size⟩
  | Command.drawLayer cs _ _ transform =>
    (Batcher.computeBoudingRectAux env none cs).map fun rect => rect.transform transform
  | Command.fillPath path => path.mesh.boundingRect
  | Command.strokePath path => path.mesh.boundingRect

def Batcher.computeBoudingRectAux (env : TextureCacheView) (acc : Option Rect) :
    List Command → Option Rect
  | [] => acc
  | c :: rest =>
    match Batcher.commandBoudingRect env c with
    | none => Batcher.computeBoudingRectAux env acc rest
    | some rect =>
      Batcher.computeBoudingRectAux env
        (some (match acc with
          | some v => v.union rect
          | none => rect)) rest

end

/-- `Batcher::compute_bouding_rect` (source name kept, typo included). -/
def Batcher.computeBoudingRect (env : TextureCacheView) (commands : List Command) :
    Option Rect :=
  Batcher.computeBoudingRectAux env none commands

mutual

/-- `Batcher::should_enable_msaa`. -/
def Batcher.shouldEnableMsaa : List Command → Bool
  | [] => false
  | c :: rest => Batcher.cmdEnablesMsaa c || Batcher.shouldEnableMsaa rest

/-- One command's contribution to `should_enable_msaa`: vector paths enable
it, and so does a fast-path (white tint, no scissor) layer whose subtree does. -/
def Batcher.cmdEnablesMsaa : Command → Bool
  | Command.fillPath _ => true
  | Command.strokePath _ => true
  | Command.drawLayer cs tint scissor _ =>
    decide (tint = Color.WHITE) && decide (scissor = none) &&
      Batcher.shouldEnableMsaa cs
  | _ => false

end

/-- Mark the first batch (scanning the reversed batch list) whose target is the
given intermediate for msaa resolve, as `draw_intermediate_layer` does. -/
def markMsaaRev (id : ℕ) : List Batch → List Batch
  | [] => []
  | bt :: rest =>
    if bt.target = Target.intermediate id then
      { bt with msaaResolve := true } :: rest
    else bt :: markMsaaRev id rest

/-- The in-place reverse scan `for batch in self.batches.iter_mut().rev()`. -/
def Batcher.markLastMsaa (id : ℕ) (b : Batcher) : Batcher :=
  { b with batches := (markMsaaRev id b.batches.reverse).reverse }

/-- Body of `Batcher::draw_intermediate_layer`, with the recursive pieces
(`compute_bouding_rect` of the subtree, and `dispatch_commands` on the subtree
including its trailing flush) passed in; this keeps the recursion over command
trees structural. -/
def Batcher.intermediateLayerCore (boundRect : Option Rect)
    (dispatch : Batcher → Batcher) (tint : Color) (transform : Affine2)
    (enableMsaa : Bool) (b : Batcher) : Batcher :=
  match boundRect with
  | none => b
  | some localRect =>
    let layerTransform :=
      match b.transformStack.head? with
      | some v => v * transform
      | none => transform
    let rect := localRect.transform layerTransform
    let rect : Rect := ⟨rect.min.floorV - Vec2.splat 1, rect.max.ceilV + Vec2.splat 1⟩
    let b := b.flush
    let (b, intermediate) := b.allocIntermediate rect.size.asUVec2 enableMsaa
    let oldTarget := b.curTarget
    let b := b.setTarget (Target.intermediate intermediate)
    let b := b.pushRaw Affine2.IDENTITY
    let b := b.cmdClearRect ⟨Vec2.ZERO, rect.size, Color.TRANSPAENT⟩
    let b := b.popTransform
    let b := b.pushRaw (Affine2.fromTranslation (-rect.min) * layerTransform)
    let b := dispatch b
    let b := b.popTransform
    let b := b.flush
    let b := if enableMsaa then b.markLastMsaa intermediate else b
    let b := b.setTarget oldTarget
    let b := b.setSource (Source.intermediate intermediate)
    let b := b.pushRaw Affine2.IDENTITY
    let b := b.addQuad
      { min := rect.min
        max := rect.max
        localMin := Vec2.ZERO
        localMax := Vec2.ZERO
        texMin := Vec2.ZERO
        texMax := Vec2.ONE
        color := tint.toVec4
        instanceId := INSTANCE_FILL }
    b.popTransform

mutual

/-- The command loop of `Batcher::dispatch_commands` (its trailing `flush` is
applied by the wrapper `Batcher.dispatchCommands` below). -/
def Batcher.dispatchList (env : TextureCacheView) :
    List Command → Batcher → Batcher
  | [], b => b
  | c :: rest, b => Batcher.dispatchList env rest (Batcher.dispatchCmd env c b)

/-- One iteration of the `dispatch_commands` match; the `DrawLayer` arm inlines
`Batcher::cmd_draw_layer`. -/
def Batcher.dispatchCmd (env : TextureCacheView) : Command → Batcher → Batcher
  | Command.clearRect rect, b => b.cmdClearRect rect
  | Command.drawRect rect, b => b.cmdDrawRect env rect
  | Command.drawGlyph glyph, b => b.cmdDrawGlyph env glyph
  | Command.drawLayer cs tint scissor transform, b =>
    let b := b.setClear false
    if tint = Color.WHITE ∧ scissor = none then
      if transform = Affine2.IDENTITY then
        Batcher.flush (Batcher.dispatchList env cs b)
      else
        (Batcher.flush
            (Batcher.dispatchList env cs (b.pushTransform transform))).popTransform
    else
      Batcher.intermediateLayerCore (Batcher.computeBoudingRect env cs)
        (fun st => Batcher.flush (Batcher.dispatchList env cs st))
        tint transform (Batcher.shouldEnableMsaa cs) b
  | Command.fillPath path, b => b.cmdFillPath env path
  | Command.strokePath path, b => b.cmdStrokePath env path

end

/-- `Batcher::dispatch_commands` (the returned batch range is dropped by every
caller in the source and is not modelled). -/
def Batcher.dispatchCommands (env : TextureCacheView) (commands : List Command)
    (b : Batcher) : Batcher :=
  Batcher.flush (Batcher.dispatchList env commands b)

/-- `Batcher::draw_intermediate_layer`. -/
def Batcher.drawIntermediateLayer (env : TextureCacheView) (commands : List Command)
    (tint : Color) (transform : Affine2) (enableMsaa : Bool) (b : Batcher) :
    Batcher :=
  Batcher.intermediateLayerCore (Batcher.computeBoudingRect env commands)
    (Batcher.dispatchCommands env commands) tint transform enableMsaa b

/-- `Batcher::prepare`. -/
def Batcher.prepare (env : TextureCacheView) (drawList : DrawList) (b : Batcher) :
    Batcher :=
  if drawList.commands.isEmpty then b
  else
    let b := b.setTarget (Target.surface drawList.surface)
    let b :=
      if Batcher.shouldEnableMsaa drawList.commands then
        Batcher.drawIntermediateLayer env drawList.commands Color.WHITE
          Affine2.IDENTITY true b
      else
        Batcher.dispatchCommands env drawList.commands b
    b.flush

/-- One batcher processing a frame's draw lists in order, as the frame loop
does with a single scratch buffer. -/
def Batcher.prepareAll (env : TextureCacheView) (lists : List DrawList)
    (b : Batcher) : Batcher :=
  lists.foldl (fun b dl => Batcher.prepare env dl b) b

/-- Association-list lookup keyed by decidable equality (models `SlotMap` /
`HashMap` lookup; keys are unique by construction). -/
def assocFind {α β : Type} [DecidableEq α] (k : α) : List (α × β) → Option β
  | [] => none
  | (k', v) :: rest => if k' = k then some v else assocFind k rest

/-- Association-list update of an existing key. -/
def assocSet {α β : Type} [DecidableEq α] (k : α) (v : β) :
    List (α × β) → List (α × β)
  | [] => []
  | (k', v') :: rest =>
    if k' = k then (k', v) :: rest else (k', v') :: assocSet k v rest

/-- `ohm_core::ErrorKind` (the kinds relevant to the texture cache). -/
inductive ErrorKind where
  | gpu
  | atlasAlloc
  | invalidImage
  | invalidFont
  | invalidPath
  | io
deriving DecidableEq, Repr

/-- Modelled from the spec: the 2D bin-packer primitive behind one atlas
(`guillotiere::AtlasAllocator`, a dependency whose code is not part of this
repository; spec §4.1 "2D bin-packer for one texture"). A shelf packer: it
packs requests left to right on shelves, `deallocate` releases a live region
(spec: "returns space to the packer"), `grow` enlarges the packable area
keeping existing placements, `is_empty` reports whether live regions remain. -/
structure PackerState where
  size : UVec2
  cursorX : ℕ
  cursorY : ℕ
  shelfHeight : ℕ
  live : List ℕ
  nextAllocId : ℕ
deriving DecidableEq, Repr

namespace PackerState

def new (size : UVec2) : PackerState := ⟨size, 0, 0, 0, [], 0⟩

def allocate (s : PackerState) (req : UVec2) : Option ((ℕ × URect) × PackerState) :=
  if s.cursorX + req.x ≤ s.size.x ∧ s.cursorY + req.y ≤ s.size.y then
    some ((s.nextAllocId,
           ⟨⟨s.cursorX, s.cursorY⟩, ⟨s.cursorX + req.x, s.cursorY + req.y⟩⟩),
      { s with
        cursorX := s.cursorX + req.x
        shelfHeight := max s.shelfHeight req.y
        live := s.nextAllocId :: s.live
        nextAllocId := s.nextAllocId + 1 })
  else if req.x ≤ s.size.x ∧ s.cursorY + s.shelfHeight + req.y ≤ s.size.y then
    some ((s.nextAllocId,
           ⟨⟨0, s.cursorY + s.shelfHeight⟩,
            ⟨req.x, s.cursorY + s.shelfHeight + req.y⟩⟩),
      { s with
        cursorX := req.x
        cursorY := s.cursorY + s.shelfHeight
        shelfHeight := req.y
        live := s.nextAllocId :: s.live
        nextAllocId := s.nextAllocId + 1 })
  else none

def deallocate (s : PackerState) (id : ℕ) : PackerState :=
  { s with live := s.live.filter (· ≠ id) }

def isEmpty (s : PackerState) : Bool := s.live.isEmpty

def grow (s : PackerState) (newSize : UVec2) : PackerState :=
  { s with size := newSize }

end PackerState

/-- `ohm_core::texture::TextureIdAllocator`. -/
structure TextureIdAllocator where
  nextId : TextureId
deriving DecidableEq, Repr

/-- `TextureIdAllocator::alloc`: returns the current id and increments. -/
def TextureIdAllocator.alloc (a : TextureIdAllocator) :
    TextureId × TextureIdAllocator :=
  (a.nextId, ⟨⟨a.nextId.val + 1⟩⟩)

/-- The ids issued by `n` consecutive `TextureIdAllocator::alloc` calls. -/
def TextureIdAllocator.allocSeq (a : TextureIdAllocator) : ℕ → List TextureId
  | 0 => []
  | n + 1 =>
    let (id, a') := a.alloc
    id :: a'.allocSeq n

/-- `ohm_core::texture::TextureAtlas`. -/
structure TextureAtlas where
  texture : TextureId
  format : ImageFormat
  size : UVec2
  allocator : PackerState
  mipmapMode : MipmapMode
deriving DecidableEq, Repr

namespace TextureAtlas

def MIN_SIZE : ℕ := 512

def MAX_SIZE : ℕ := 4096

/-- `TextureAtlas::new`. -/
def new (ida : TextureIdAllocator) (cmds : List TextureCommand)
    (format : ImageFormat) (size : UVec2) (mipmapMode : MipmapMode) :
    TextureAtlas × TextureIdAllocator × List TextureCommand :=
  let (texture, ida) := ida.alloc
  (⟨texture, format, size, PackerState.new size, mipmapMode⟩, ida,
   cmds ++ [TextureCommand.createDynamic texture format size mipmapMode])

/-- `TextureAtlas::try_alloc`. -/
def tryAlloc (a : TextureAtlas) (cmds : List TextureCommand) (size : UVec2)
    (data : ImageData) :
    Option ((ℕ × URect) × TextureAtlas × List TextureCommand) :=
  match a.allocator.allocate size with
  | none => none
  | some ((id, rect), alloc) =>
    some ((id, rect), { a with allocator := alloc },
          cmds ++ [TextureCommand.write a.texture rect data])

end TextureAtlas

/-- The `while new_size.cmplt(alloc_size).any() { new_size *= 2 }` loop of
`TextureAtlas::alloc`. The positivity guards terminate the model on
zero-sized atlases, a state the code never reaches (atlases are at least
`MIN_SIZE`; Rust would loop forever there). -/
def growLoop (n req : UVec2) : UVec2 :=
  if (n.x < req.x ∨ n.y < req.y) ∧ 0 < n.x ∧ 0 < n.y then
    growLoop ⟨n.x * 2, n.y * 2⟩ req
  else n
termination_by (req.x - n.x) + (req.y - n.y)
decreasing_by simp_wf; omega

/-- `TextureAtlas::alloc`: try the pack, and on failure double the atlas (both
axes, repeatedly until the request fits), bail out at the maximum size, else
create the grown texture, copy the entire previous extent into its origin, and
retry the pack once. -/
def TextureAtlas.alloc (a : TextureAtlas) (ida : TextureIdAllocator)
    (cmds : List TextureCommand) (size : UVec2) (data : ImageData) :
    Option (ℕ × URect) × TextureAtlas × TextureIdAllocator × List TextureCommand :=
  match a.tryAlloc cmds size data with
  | some (res, a, cmds) => (some res, a, ida, cmds)
  | none =>
    let newSize := growLoop (a.size * 2) size
    if TextureAtlas.MAX_SIZE ≤ newSize.x ∨ TextureAtlas.MAX_SIZE ≤ newSize.y then
      (none, a, ida, cmds)
    else
      let srcId := a.texture
      let (dstId, ida) := ida.alloc
      let cmds := cmds ++
        [TextureCommand.createDynamic dstId a.format newSize a.mipmapMode,
         TextureCommand.copy srcId dstId ⟨UVec2.ZERO, a.size⟩ ⟨UVec2.ZERO, a.size⟩]
      let a := { a with
        texture := dstId
        size := newSize
        allocator := a.allocator.grow newSize }
      match a.tryAlloc cmds size data with
      | some (res, a, cmds) => (some res, a, ida, cmds)
      | none => (none, a, ida, cmds)

/-- `TextureAtlas::free`. -/
def TextureAtlas.freeA (a : TextureAtlas) (id : ℕ) : TextureAtlas :=
  { a with allocator := a.allocator.deallocate id }

/-- `TextureAtlas::is_empty`. -/
def TextureAtlas.isEmptyA (a : TextureAtlas) : Bool := a.allocator.isEmpty

/-- Fuel-bounded doubling loop behind `nextPow2`; `n` steps from `1` always
suffice to reach `n`. -/
def nextPow2Go (n : ℕ) : ℕ → ℕ → ℕ
  | 0, acc => acc
  | fuel + 1, acc => if n ≤ acc then acc else nextPow2Go n fuel (acc * 2)

/-- `u32::next_power_of_two`: the least power of two that is at least `n`
(and `1` for `n = 0`). -/
def nextPow2 (n : ℕ) : ℕ := nextPow2Go n n 1

/-- `ohm_core::texture::TextureAtlasPool` (`SlotMap<AtlasId, TextureAtlas>` as
an id-keyed association list with a fresh-key counter). -/
structure TextureAtlasPool where
  atlases : List (ℕ × TextureAtlas)
  nextAtlasId : ℕ
deriving DecidableEq, Repr

namespace TextureAtlasPool

/-- The scan over existing compatible atlases in `TextureAtlasPool::alloc`;
a failed `TextureAtlas::alloc` attempt still keeps that atlas's mutations
(growth, its commands and consumed ids), as in the source. -/
def allocGo (size : UVec2) (format : ImageFormat) (mm : MipmapMode)
    (data : ImageData) :
    List (ℕ × TextureAtlas) → TextureIdAllocator → List TextureCommand →
    Option ((ℕ × ℕ) × URect) × List (ℕ × TextureAtlas) × TextureIdAllocator ×
      List TextureCommand
  | [], ida, cmds => (none, [], ida, cmds)
  | (atlasId, atlas) :: rest, ida, cmds =>
    if atlas.format = format ∧ atlas.mipmapMode = mm then
      match TextureAtlas.alloc atlas ida cmds size data with
      | (some (allocId, rect), atlas, ida, cmds) =>
        (some ((atlasId, allocId), rect), (atlasId, atlas) :: rest, ida, cmds)
      | (none, atlas, ida, cmds) =>
        let (res, rest, ida, cmds) := allocGo size format mm data rest ida cmds
        (res, (atlasId, atlas) :: rest, ida, cmds)
    else
      let (res, rest, ida, cmds) := allocGo size format mm data rest ida cmds
      (res, (atlasId, atlas) :: rest, ida, cmds)

/-- `TextureAtlasPool::alloc`. -/
def alloc (pool : TextureAtlasPool) (ida : TextureIdAllocator)
    (cmds : List TextureCommand) (data : ImageData) (mm : MipmapMode) :
    Option ((ℕ × ℕ) × URect) × TextureAtlasPool × TextureIdAllocator ×
      List TextureCommand :=
  let allocSize := data.size
  let allocFormat := data.format
  match allocGo allocSize allocFormat mm data pool.atlases ida cmds with
  | (some res, atlases, ida, cmds) =>
    (some res, { pool with atlases := atlases }, ida, cmds)
  | (none, atlases, ida, cmds) =>
    let newAtlasSize := max TextureAtlas.MIN_SIZE (nextPow2 allocSize.maxElement)
    let (newAtlas, ida, cmds) :=
      TextureAtlas.new ida cmds allocFormat (UVec2.splat newAtlasSize) mm
    let (res, newAtlas, ida, cmds) :=
      TextureAtlas.alloc newAtlas ida cmds allocSize data
    let atlasId := pool.nextAtlasId
    let pool : TextureAtlasPool :=
      ⟨atlases ++ [(atlasId, newAtlas)], pool.nextAtlasId + 1⟩
    (res.map fun r => ((atlasId, r.1), r.2), pool, ida, cmds)

/-- `TextureAtlasPool::free`. -/
def freeP (pool : TextureAtlasPool) (key : ℕ × ℕ) : TextureAtlasPool :=
  { pool with
    atlases := pool.atlases.map fun kv =>
      if kv.1 = key.1 then (kv.1, kv.2.freeA key.2) else kv }

/-- The `retain` loop of `TextureAtlasPool::cleanup`: drop empty atlases,
queueing a `Free` for each. -/
def cleanupGo : List (ℕ × TextureAtlas) → List TextureCommand →
    List (ℕ × TextureAtlas) × List TextureCommand
  | [], cmds => ([], cmds)
  | (atlasId, atlas) :: rest, cmds =>
    if atlas.isEmptyA then
      cleanupGo rest (cmds ++ [TextureCommand.free atlas.texture])
    else
      let (kept, cmds) := cleanupGo rest cmds
      ((atlasId, atlas) :: kept, cmds)

end TextureAtlasPool

/-- `ohm_core::texture::ImageEntry`. -/
structure ImageEntry where
  path : Option String
  data : Option ImageData
  mipmapMode : MipmapMode
  texture : Option TextureId
  rect : URect
  allocId : Option (ℕ × ℕ)
  requestedSize : UVec2
  maxSize : UVec2
deriving DecidableEq, Repr

/-- `ohm_core::texture::GlyphEntry`. -/
structure GlyphEntry where
  used : Bool
  rect : URect
  allocId : Option (ℕ × ℕ)
  offset : Vec2
  isEmpty : Bool
deriving DecidableEq, Repr

/-- `ohm_core::texture::TextureCache` (`SlotMap`s and `HashMap`s as keyed
association lists; the `SegQueue` cleanup queue as a list of released ids). -/
structure TextureCache where
  images : List (ℕ × ImageEntry)
  imagesByPath : List (String × ℕ)
  glyphs : List (GlyphKey × GlyphEntry)
  atlases : TextureAtlasPool
  idAllocator : TextureIdAllocator
  imageCleanupQueue : List ℕ
  nextImageId : ℕ
deriving DecidableEq, Repr

namespace TextureCache

def MIN_STANDALONE_SIZE : UVec2 := ⟨1024, 1024⟩

def new : TextureCache := ⟨[], [], [], ⟨[], 0⟩, ⟨⟨0⟩⟩, [], 0⟩

/-- `TextureCache::add_image`; the returned id stands for the `ImageHandle`. -/
def addImage (data : ImageData) (mipmapMode : MipmapMode) (c : TextureCache) :
    TextureCache × ℕ :=
  let id := c.nextImageId
  ({ c with
     images := c.images ++ [(id,
       { path := none
         data := some data
         mipmapMode := mipmapMode
         texture := none
         rect := URect.ZERO
         allocId := none
         requestedSize := data.size
         maxSize := data.size })]
     nextImageId := id + 1 }, id)

/-- `ImageHandle::drop`: pushes the id onto the cleanup queue. -/
def releaseImage (id : ℕ) (c : TextureCache) : TextureCache :=
  { c with imageCleanupQueue := c.imageCleanupQueue ++ [id] }

/-- `TextureCache::add_glyph` (`entry(key).or_insert(...)`: an existing entry
is left untouched — in particular its `used` flag is not written). -/
def addGlyph (key : GlyphKey) (c : TextureCache) : TextureCache :=
  if (assocFind key c.glyphs).isSome then c
  else
    { c with glyphs := c.glyphs ++ [(key,
        { used := true
          rect := URect.ZERO
          allocId := none
          offset := Vec2.ZERO
          isEmpty := false })] }

end TextureCache

mutual

/-- `TextureCache::add_glyphs_from_commands`. -/
def TextureCache.addGlyphsFromCommands :
    List Command → TextureCache → TextureCache
  | [], c => c
  | cmd :: rest, c =>
    TextureCache.addGlyphsFromCommands rest
      (TextureCache.addGlyphsFromCommand cmd c)

/-- One command of `add_glyphs_from_commands`. -/
def TextureCache.addGlyphsFromCommand : Command → TextureCache → TextureCache
  | Command.drawLayer cs _ _ _, c => TextureCache.addGlyphsFromCommands cs c
  | Command.drawGlyph glyph, c =>
    c.addGlyph
      { font := glyph.font, glyph := glyph.glyph, size := glyph.size,
        subpixelBin := SubpixelBin.new glyph.pos }
  | _, c => c

end

/-- Modelled from the spec: `glam::Vec2::length` (§4.3 "maximum linear scale
factor"), which is a square root and so not rational; it is abstracted as an
environment function. -/
structure ScaleEnv where
  length : Vec2 → Scalar

/-- The per-image tail of the `set_image_sizes_from_commands` loop body:
derive the on-screen size and raise the entry's `requested_size` to the
componentwise maximum. -/
def TextureCache.applyImageSize (env : ScaleEnv) (size : Vec2) (fill : FillImage)
    (transform : Affine2) (c : TextureCache) : TextureCache :=
  let scaleX := env.length transform.xAxis
  let scaleY := env.length transform.yAxis
  let scale := max scaleX scaleY
  match assocFind fill.image c.images with
  | none => c
  | some image =>
    if image.maxSize ≠ UVec2.ZERO ∧
        (image.requestedSize.x ≤ image.maxSize.x ∨
         image.requestedSize.y ≤ image.maxSize.y) then
      c
    else
      let size : Vec2 :=
        match fill.clipRect with
        | some clip => size / clip.size
        | none => size
      let size := (size * scale : Vec2).asUVec2
      let image := { image with requestedSize := image.requestedSize.maxV size }
      { c with images := assocSet fill.image image c.images }

mutual

/-- `TextureCache::set_image_sizes_from_commands`. -/
def TextureCache.setImageSizesFromCommands (env : ScaleEnv) :
    List Command → Affine2 → TextureCache → TextureCache
  | [], _, c => c
  | cmd :: rest, transform, c =>
    TextureCache.setImageSizesFromCommands env rest transform
      (TextureCache.setImageSizesFromCommand env cmd transform c)

/-- One command of `set_image_sizes_from_commands`; layers recurse with
`layer.transform * transform`, image-filled rects and paths contribute their
on-screen size. -/
def TextureCache.setImageSizesFromCommand (env : ScaleEnv) :
    Command → Affine2 → TextureCache → TextureCache
  | Command.drawLayer cs _ _ layerTransform, transform, c =>
    TextureCache.setImageSizesFromCommands env cs (layerTransform * transform) c
  | Command.drawRect rect, transform, c =>
    match rect.fill with
    | Fill.image fill => TextureCache.applyImageSize env rect.size fill transform c
    | _ => c
  | Command.fillPath path, transform, c =>
    match path.fill, path.mesh.boundingRect with
    | Fill.image fill, some rect =>
      TextureCache.applyImageSize env rect.size fill transform c
    | _, _ => c
  | Command.strokePath path, transform, c =>
    match path.fill, path.mesh.boundingRect with
    | Fill.image fill, some rect =>
      TextureCache.applyImageSize env rect.size fill transform c
    | _, _ => c
  | _, _, c => c

end

/-- External collaborators of `TextureCache::load_images`: the asset source,
the path-extension accessor, and the image decoder chain (raw bytes as an
abstract token). -/
structure ImageLoadEnv where
  load : String → Except ErrorKind ℕ
  extension : String → Option String
  decode : Option String → ℕ → Option UVec2 → Except ErrorKind ImageData

namespace TextureCache

/-- The size-dependent tail of the `load_images` loop body, after pixel data
has been obtained: record `max_size` when the decode came out smaller than
requested, then place the image — standalone texture if the decoded size
reaches `MIN_STANDALONE_SIZE` in either axis, atlas pool otherwise. -/
def loadImageFinish (e : ImageEntry) (requestedSize : Option UVec2)
    (data : ImageData) (pool : TextureAtlasPool) (ida : TextureIdAllocator)
    (cmds : List TextureCommand) :
    Except ErrorKind
      (ImageEntry × TextureAtlasPool × TextureIdAllocator × List TextureCommand) :=
  let e :=
    if requestedSize.any fun v => data.size.x < v.x ∨ data.size.y < v.y then
      { e with maxSize := data.size }
    else e
  if MIN_STANDALONE_SIZE.x ≤ data.size.x ∨ MIN_STANDALONE_SIZE.y ≤ data.size.y
  then
    let (textureId, ida) := ida.alloc
    let e := { e with texture := some textureId, rect := ⟨UVec2.ZERO, data.size⟩ }
    Except.ok (e, pool, ida,
      cmds ++ [TextureCommand.createStatic textureId data e.mipmapMode])
  else
    match pool.alloc ida cmds data e.mipmapMode with
    | (none, _, _, _) => Except.error ErrorKind.atlasAlloc
    | (some (allocId, rect), pool, ida, cmds) =>
      Except.ok ({ e with allocId := some allocId, rect := rect }, pool, ida, cmds)

/-- One image entry of the `load_images` loop. An entry already resolved to a
texture or an atlas region is skipped unchanged. -/
def loadImageStep (env : ImageLoadEnv) (e : ImageEntry)
    (pool : TextureAtlasPool) (ida : TextureIdAllocator)
    (cmds : List TextureCommand) :
    Except ErrorKind
      (ImageEntry × TextureAtlasPool × TextureIdAllocator × List TextureCommand) :=
  if e.texture.isSome ∨ e.allocId.isSome then Except.ok (e, pool, ida, cmds)
  else
    let requestedSize :=
      if e.requestedSize.x ≠ 0 ∧ e.requestedSize.y ≠ 0 then some e.requestedSize
      else none
    match e.data with
    | some data => loadImageFinish { e with data := none } requestedSize data pool ida cmds
    | none =>
      match e.path with
      | some path =>
        match env.load path with
        | Except.error err => Except.error err
        | Except.ok rawData =>
          match env.decode (env.extension path) rawData requestedSize with
          | Except.error err => Except.error err
          | Except.ok data => loadImageFinish e requestedSize data pool ida cmds
      | none => Except.ok (e, pool, ida, cmds)

/-- The entry iteration of `load_images` (an error aborts the remaining
loads and propagates; the partially mutated cache of the Rust error path is
not observed by any caller and is not modelled). -/
def loadImagesGo (env : ImageLoadEnv) :
    List (ℕ × ImageEntry) → TextureAtlasPool → TextureIdAllocator →
    List TextureCommand →
    Except ErrorKind
      (List (ℕ × ImageEntry) × TextureAtlasPool × TextureIdAllocator ×
        List TextureCommand)
  | [], pool, ida, cmds => Except.ok ([], pool, ida, cmds)
  | (k, e) :: rest, pool, ida, cmds =>
    match loadImageStep env e pool ida cmds with
    | Except.error err => Except.error err
    | Except.ok (e, pool, ida, cmds) =>
      match loadImagesGo env rest pool ida cmds with
      | Except.error err => Except.error err
      | Except.ok (rest, pool, ida, cmds) => Except.ok ((k, e) :: rest, pool, ida, cmds)

/-- `TextureCache::load_images`. -/
def loadImages (env : ImageLoadEnv) (c : TextureCache)
    (cmds : List TextureCommand) :
    Except ErrorKind (TextureCache × List TextureCommand) :=
  match loadImagesGo env c.images c.atlases c.idAllocator cmds with
  | Except.error err => Except.error err
  | Except.ok (images, pool, ida, cmds) =>
    Except.ok ({ c with images := images, atlases := pool, idAllocator := ida }, cmds)

end TextureCache

/-- External collaborators of `TextureCache::load_glyphs`: the font database
(font faces as abstract tokens) and the rasterizer chain. -/
structure GlyphLoadEnv where
  fontDb : ℕ → Option ℕ
  rasterize : ℕ → ℕ → Scalar → SubpixelBin → Option (ImageData × Vec2)

namespace TextureCache

/-- One glyph entry of the `load_glyphs` loop. A permanently-empty or already
allocated glyph is skipped; a `None` raster result is cached as empty; a
bitmap is always allocated from the atlas pool (`MipmapMode::Disabled`). -/
def loadGlyphStep (env : GlyphLoadEnv) (key : GlyphKey) (g : GlyphEntry)
    (pool : TextureAtlasPool) (ida : TextureIdAllocator)
    (cmds : List TextureCommand) :
    Except ErrorKind
      (GlyphEntry × TextureAtlasPool × TextureIdAllocator × List TextureCommand) :=
  if g.isEmpty ∨ g.allocId.isSome then Except.ok (g, pool, ida, cmds)
  else
    match env.fontDb key.font with
    | none => Except.ok (g, pool, ida, cmds)
    | some font =>
      match env.rasterize font key.glyph key.size key.subpixelBin with
      | none => Except.ok ({ g with isEmpty := true }, pool, ida, cmds)
      | some (image, offset) =>
        match pool.alloc ida cmds image MipmapMode.disabled with
        | (none, _, _, _) => Except.error ErrorKind.atlasAlloc
        | (some (allocId, rect), pool, ida, cmds) =>
          Except.ok ({ g with allocId := some allocId, rect := rect, offset := offset },
            pool, ida, cmds)

/-- The entry iteration of `load_glyphs`. -/
def loadGlyphsGo (env : GlyphLoadEnv) :
    List (GlyphKey × GlyphEntry) → TextureAtlasPool → TextureIdAllocator →
    List TextureCommand →
    Except ErrorKind
      (List (GlyphKey × GlyphEntry) × TextureAtlasPool × TextureIdAllocator ×
        List TextureCommand)
  | [], pool, ida, cmds => Except.ok ([], pool, ida, cmds)
  | (key, g) :: rest, pool, ida, cmds =>
    match loadGlyphStep env key g pool ida cmds with
    | Except.error err => Except.error err
    | Except.ok (g, pool, ida, cmds) =>
      match loadGlyphsGo env rest pool ida cmds with
      | Except.error err => Except.error err
      | Except.ok (rest, pool, ida, cmds) => Except.ok ((key, g) :: rest, pool, ida, cmds)

/-- `TextureCache::load_glyphs`. -/
def loadGlyphs (env : GlyphLoadEnv) (c : TextureCache)
    (cmds : List TextureCommand) :
    Except ErrorKind (TextureCache × List TextureCommand) :=
  match loadGlyphsGo env c.glyphs c.atlases c.idAllocator cmds with
  | Except.error err => Except.error err
  | Except.ok (glyphs, pool, ida, cmds) =>
    Except.ok ({ c with glyphs := glyphs, atlases := pool, idAllocator := ida }, cmds)

/-- `TextureCache::get_image`. -/
def getImage (c : TextureCache) (id : ℕ) : Option AllocatedImage :=
  (assocFind id c.images).bind fun entry =>
    let fromAtlas : Option (TextureId × UVec2) :=
      entry.allocId.bind fun key =>
        (assocFind key.1 c.atlases.atlases).map fun atlas =>
          (atlas.texture, atlas.size)
    let ts : Option (TextureId × UVec2) :=
      match entry.texture with
      | some tex => some (tex, entry.rect.max)
      | none => fromAtlas
    ts.map fun ts => ⟨ts.1, ts.2, entry.rect⟩

/-- `TextureCache::get_glyph`. -/
def getGlyph (c : TextureCache) (key : GlyphKey) : Option AllocatedGlyph :=
  (assocFind key c.glyphs).bind fun entry =>
    entry.allocId.bind fun k =>
      (assocFind k.1 c.atlases.atlases).map fun atlas =>
        ⟨atlas.texture, atlas.format, atlas.size, entry.rect, entry.offset⟩

/-- The queue-draining image half of `TextureCache::cleanup`: every id whose
handle was released is removed, freeing its atlas region or queueing a `Free`
for its standalone texture. -/
def cleanupQueueGo :
    List ℕ → List (ℕ × ImageEntry) → List (String × ℕ) → TextureAtlasPool →
    List TextureCommand →
    List (ℕ × ImageEntry) × List (String × ℕ) × TextureAtlasPool ×
      List TextureCommand
  | [], images, byPath, pool, cmds => (images, byPath, pool, cmds)
  | id :: queue, images, byPath, pool, cmds =>
    match assocFind id images with
    | none => cleanupQueueGo queue images byPath pool cmds
    | some image =>
      let images := images.filter fun kv => kv.1 ≠ id
      let (pool, cmds) :=
        match image.allocId with
        | some allocKey => (pool.freeP allocKey, cmds)
        | none =>
          match image.texture with
          | some tid => (pool, cmds ++ [TextureCommand.free tid])
          | none => (pool, cmds)
      let byPath :=
        match image.path with
        | some path => byPath.filter fun kv => kv.1 ≠ path
        | none => byPath
      cleanupQueueGo queue images byPath pool cmds

/-- The `glyphs.retain` half of `TextureCache::cleanup`: keep entries whose
`used` flag is set, free the atlas regions of the rest. -/
def cleanupGlyphsGo :
    List (GlyphKey × GlyphEntry) → TextureAtlasPool →
    List (GlyphKey × GlyphEntry) × TextureAtlasPool
  | [], pool => ([], pool)
  | (key, g) :: rest, pool =>
    if g.used then
      let (kept, pool) := cleanupGlyphsGo rest pool
      ((key, g) :: kept, pool)
    else
      let pool :=
        match g.allocId with
        | some k => pool.freeP k
        | none => pool
      cleanupGlyphsGo rest pool

/-- `TextureCache::cleanup`. -/
def cleanup (c : TextureCache) (cmds : List TextureCommand) :
    TextureCache × List TextureCommand :=
  let (images, byPath, pool, cmds) :=
    cleanupQueueGo c.imageCleanupQueue c.images c.imagesByPath c.atlases cmds
  let (glyphs, pool) := cleanupGlyphsGo c.glyphs pool
  let (atlases, cmds) := TextureAtlasPool.cleanupGo pool.atlases cmds
  ({ c with
     images := images
     imagesByPath := byPath
     glyphs := glyphs
     atlases := ⟨atlases, pool.nextAtlasId⟩
     imageCleanupQueue := [] }, cmds)

end TextureCache

/-- The draw-data view of a batcher: the geometry buffers and the state that
feeds them (transform stack, instance-buffer capacity). Batch bookkeeping
(`batches`, `last_index`/`last_vertex`, current target/source/clear flags and
the instance-buffer cursor) is excluded: it never influences what geometry is
generated. -/
structure DrawData where
  vertices : List Vertex
  indices : List ℕ
  instances : List Instance
  intermediates : List Intermediate
  transformStack : List Affine2
  maxInstancesPerBuffer : ℕ
deriving DecidableEq, Repr

def Batcher.drawData (b : Batcher) : DrawData :=
  ⟨b.vertices, b.indices, b.instances, b.intermediates, b.transformStack,
   b.maxInstancesPerBuffer⟩

/-- The batch index ranges form a chain starting at `n`: each batch starts
where the previous one ended, with a nonempty range. -/
def Chained : ℕ → List Batch → Prop
  | _, [] => True
  | n, bt :: rest =>
    bt.indexStart = n ∧ bt.indexStart < bt.indexEnd ∧ Chained bt.indexEnd rest

/-- Where the chain of batch index ranges ends (seeded at `n`). -/
def chainEnd : ℕ → List Batch → ℕ
  | n, [] => n
  | _, bt :: rest => chainEnd bt.indexEnd rest

/-- Invariant tying a batcher's batch list to its index cursor: ranges chain
from `0`, the chain ends at `last_index`, and `last_index` never exceeds the
index buffer length. -/
def Batcher.BatchInv (b : Batcher) : Prop :=
  Chained 0 b.batches ∧ chainEnd 0 b.batches = b.lastIndex ∧
    b.lastIndex ≤ b.indices.length

/-- The index range of a batch, for statements that only care about ranges. -/
def Batch.rangePair (bt : Batch) : ℕ × ℕ := (bt.indexStart, bt.indexEnd)

/-- Keys in order with componentwise-monotone `requested_size` between two
image tables of equal shape. -/
def imagesMono : List (ℕ × ImageEntry) → List (ℕ × ImageEntry) → Prop
  | [], [] => True
  | (k, e) :: rest, (k', e') :: rest' =>
    k = k' ∧ e.requestedSize.x ≤ e'.requestedSize.x ∧
      e.requestedSize.y ≤ e'.requestedSize.y ∧ imagesMono rest rest'
  | _, _ => False

/-- Whether a texture command is a `CreateStatic` (a dedicated texture
upload). -/
def TextureCommand.isCreateStatic : TextureCommand → Bool
  | TextureCommand.createStatic _ _ _ => true
  | _ => false

/-- A texture cache view that resolves nothing. -/
def unresolvedView : TextureCacheView := ⟨fun _ => none, fun _ => none⟩

/-- A full-surface white clear (scenario input). -/
def fullClear : ClearRect := ⟨Vec2.ZERO, ⟨800, 600⟩, Color.WHITE⟩

/-- A plain solid-red rect at (10,10), 50×50, no border/shadow/radii
(scenario input). -/
def redRect : DrawRect :=
  ⟨⟨10, 10⟩, ⟨50, 50⟩, Fill.solid (Color.rgb 1 0 0), CornerRadii.default,
   none, none⟩

/-- The clear-then-rect scenario draw list. -/
def clearRectList : DrawList :=
  ⟨7, [Command.clearRect fullClear, Command.drawRect redRect]⟩

/-- Three same-state rects with the middle one wrapped in a fast-path layer. -/
def layeredCmds : List Command :=
  [Command.drawRect redRect,
   Command.drawLayer [Command.drawRect redRect] Color.WHITE none Affine2.IDENTITY,
   Command.drawRect redRect]

/-- The same three rects with the layer's child inlined at its position. -/
def inlinedCmds : List Command :=
  [Command.drawRect redRect, Command.drawRect redRect, Command.drawRect redRect]

/-- A rect filled from an image id that the cache does not resolve. -/
def unresolvedImageRect : DrawRect :=
  ⟨⟨0, 0⟩, ⟨20, 20⟩, Fill.image ⟨5, Color.rgb 1 0 0, none⟩, CornerRadii.default,
   none, none⟩

/-- A concrete glyph key (scenario input). -/
def glyphKeyA : GlyphKey := ⟨1, 2, 16, ⟨0, 0⟩⟩

/-- A glyph load environment whose rasterizer yields a 10×10 grayscale
bitmap for every glyph. -/
def smallGlyphEnv : GlyphLoadEnv :=
  ⟨fun _ => some 0, fun _ _ _ _ => some (⟨ImageFormat.gray8, ⟨10, 10⟩⟩, Vec2.ZERO)⟩

/-- The cache after registering `glyphKeyA` and loading it under
`smallGlyphEnv`. -/
def loadedGlyphCache : TextureCache :=
  match TextureCache.loadGlyphs smallGlyphEnv
      (TextureCache.addGlyph glyphKeyA TextureCache.new) [] with
  | Except.ok (c, _) => c
  | Except.error _ => TextureCache.new

/-- A glyph load environment whose rasterizer yields a 2048×2048 grayscale
bitmap (at or above the 1024×1024 standalone threshold in both axes). -/
def hugeGlyphEnv : GlyphLoadEnv :=
  ⟨fun _ => some 0,
   fun _ _ _ _ => some (⟨ImageFormat.gray8, ⟨2048, 2048⟩⟩, Vec2.ZERO)⟩

/-- The cache after registering `glyphKeyA` and loading it under
`hugeGlyphEnv`. -/
def hugeGlyphCache : TextureCache :=
  match TextureCache.loadGlyphs hugeGlyphEnv
      (TextureCache.addGlyph glyphKeyA TextureCache.new) [] with
  | Except.ok (c, _) => c
  | Except.error _ => TextureCache.new

/-- The texture commands emitted while loading the huge glyph. -/
def hugeGlyphCmds : List TextureCommand :=
  match TextureCache.loadGlyphs hugeGlyphEnv
      (TextureCache.addGlyph glyphKeyA TextureCache.new) [] with
  | Except.ok (_, cmds) => cmds
  | Except.error _ => []

/-- A packer state for a 2048×2048 atlas with no remaining space and one live
region. -/
def fullPacker : PackerState := ⟨⟨2048, 2048⟩, 0, 2048, 0, [0], 1⟩

/-- A full 2048×2048 atlas (scenario input). -/
def fullAtlas : TextureAtlas :=
  ⟨⟨5⟩, ImageFormat.srgba8, ⟨2048, 2048⟩, fullPacker, MipmapMode.disabled⟩

/-- A small 100×100 image payload (scenario input). -/
def smallData : ImageData := ⟨ImageFormat.srgba8, ⟨100, 100⟩⟩

/-- A packer state for a 512×512 atlas with no remaining space and one live
region. -/
def fullPacker512 : PackerState := ⟨⟨512, 512⟩, 0, 512, 0, [0], 1⟩

/-- A full 512×512 atlas (scenario input). -/
def fullAtlas512 : TextureAtlas :=
  ⟨⟨5⟩, ImageFormat.srgba8, ⟨512, 512⟩, fullPacker512, MipmapMode.disabled⟩

/-- `cmds'` extends `cmds` only with commands that are not `CreateStatic`
(pure atlas traffic: dynamic creates, copies, writes, frees). -/
def noStaticExt (cmds cmds' : List TextureCommand) : Prop :=
  ∃ extra, cmds' = cmds ++ extra ∧ ∀ cmd ∈ extra, cmd.isCreateStatic = false

/-- An image entry already resolved to a dedicated texture (scenario input). -/
def resolvedEntry : ImageEntry :=
  { path := none
    data := none
    mipmapMode := MipmapMode.disabled
    texture := some ⟨5⟩
    rect := ⟨⟨0, 0⟩, ⟨64, 64⟩⟩
    allocId := none
    requestedSize := ⟨0, 0⟩
    maxSize := ⟨0, 0⟩ }

/-- A cache holding the one resolved image entry (scenario input). -/
def c7cache : TextureCache :=
  { images := [(0, resolvedEntry)]
    imagesByPath := []
    glyphs := []
    atlases := ⟨[], 0⟩
    idAllocator := ⟨⟨7⟩⟩
    imageCleanupQueue := []
    nextImageId := 1 }

/-- An image-loading environment whose loader and decoder always fail,
witnessing that a resolved entry's load pass consults neither. -/
def failImageEnv : ImageLoadEnv :=
  { load := fun _ => Except.error ErrorKind.io
    extension := fun _ => none
    decode := fun _ _ _ => Except.error ErrorKind.invalidImage }

/-! ## Theorems -/

theorem noStaticExt_refl (cmds : List TextureCommand) : noStaticExt cmds cmds :=
  ⟨[], by simp⟩

theorem noStaticExt_snoc (cmds l : List TextureCommand)
    (h : ∀ cmd ∈ l, cmd.isCreateStatic = false) : noStaticExt cmds (cmds ++ l) :=
  ⟨l, rfl, h⟩

theorem noStaticExt_trans {a b c : List TextureCommand} (h1 : noStaticExt a b)
    (h2 : noStaticExt b c) : noStaticExt a c := by
  obtain ⟨e1, rfl, h1⟩ := h1
  obtain ⟨e2, rfl, h2⟩ := h2
  refine ⟨e1 ++ e2, by simp, fun cmd hc => ?_⟩
  rcases List.mem_append.mp hc with h | h
  · exact h1 _ h
  · exact h2 _ h

theorem tryAlloc_noStatic {a : TextureAtlas} {cmds : List TextureCommand}
    {size : UVec2} {data : ImageData}
    {res : (ℕ × URect) × TextureAtlas × List TextureCommand}
    (h : a.tryAlloc cmds size data = some res) : noStaticExt cmds res.2.2 := by
  unfold TextureAtlas.tryAlloc at h
  cases hm : a.allocator.allocate size with
  | none => rw [hm] at h; cases h
  | some pr =>
    obtain ⟨⟨id, rect⟩, alloc⟩ := pr
    rw [hm] at h
    cases h
    exact noStaticExt_snoc _ _ (by simp [TextureCommand.isCreateStatic])

theorem allocA_noStatic (a : TextureAtlas) (ida : TextureIdAllocator)
    (cmds : List TextureCommand) (size : UVec2) (data : ImageData) :
    noStaticExt cmds (TextureAtlas.alloc a ida cmds size data).2.2.2 := by
  unfold TextureAtlas.alloc
  split
  · rename_i res a1 c1 heq
    exact tryAlloc_noStatic heq
  · rename_i heq
    simp only [TextureIdAllocator.alloc]
    split
    · exact noStaticExt_refl cmds
    · split
      · rename_i res a2 c2 heq2
        exact noStaticExt_trans
          (noStaticExt_snoc _ _ (by simp [TextureCommand.isCreateStatic]))
          (tryAlloc_noStatic heq2)
      · exact noStaticExt_snoc _ _ (by simp [TextureCommand.isCreateStatic])

theorem atlasNew_noStatic (ida : TextureIdAllocator) (cmds : List TextureCommand)
    (format : ImageFormat) (size : UVec2) (mm : MipmapMode) :
    noStaticExt cmds (TextureAtlas.new ida cmds format size mm).2.2 := by
  unfold TextureAtlas.new
  exact noStaticExt_snoc _ _ (by simp [TextureCommand.isCreateStatic])

theorem allocGo_noStatic (size : UVec2) (format : ImageFormat) (mm : MipmapMode)
    (data : ImageData) :
    ∀ (l : List (ℕ × TextureAtlas)) (ida : TextureIdAllocator)
      (cmds : List TextureCommand),
      noStaticExt cmds (TextureAtlasPool.allocGo size format mm data l ida cmds).2.2.2
  | [], ida, cmds => by
    unfold TextureAtlasPool.allocGo
    exact noStaticExt_refl cmds
  | (atlasId, atlas) :: rest, ida, cmds => by
    unfold TextureAtlasPool.allocGo
    split
    · split
      · rename_i allocId rect a1 ida1 cmds1 hA
        have hAs := allocA_noStatic atlas ida cmds size data
        rw [hA] at hAs
        exact hAs
      · rename_i a1 ida1 cmds1 hA
        have hAs := allocA_noStatic atlas ida cmds size data
        rw [hA] at hAs
        split
        rename_i res2 l2 ida2 cmds2 hgo
        have h2 := allocGo_noStatic size format mm data rest ida1 cmds1
        rw [hgo] at h2
        exact noStaticExt_trans hAs h2
    · split
      rename_i res2 l2 ida2 cmds2 hgo
      have h2 := allocGo_noStatic size format mm data rest ida cmds
      rw [hgo] at h2
      exact h2

theorem poolAlloc_noStatic (pool : TextureAtlasPool) (ida : TextureIdAllocator)
    (cmds : List TextureCommand) (data : ImageData) (mm : MipmapMode) :
    noStaticExt cmds (TextureAtlasPool.alloc pool ida cmds data mm).2.2.2 := by
  unfold TextureAtlasPool.alloc
  dsimp only
  split
  · rename_i res l1 ida1 cmds1 hgo
    have h1 := allocGo_noStatic data.size data.format mm data pool.atlases ida cmds
    rw [hgo] at h1
    exact h1
  · rename_i l1 ida1 cmds1 hgo
    have h1 := allocGo_noStatic data.size data.format mm data pool.atlases ida cmds
    rw [hgo] at h1
    have h2 := atlasNew_noStatic ida1 cmds1 data.format
      (UVec2.splat (max TextureAtlas.MIN_SIZE (nextPow2 data.size.maxElement))) mm
    exact noStaticExt_trans h1
      (noStaticExt_trans h2 (allocA_noStatic _ _ _ data.size data))

theorem loadGlyphStep_noStatic {env : GlyphLoadEnv} {key : GlyphKey}
    {g : GlyphEntry} {pool : TextureAtlasPool} {ida : TextureIdAllocator}
    {cmds : List TextureCommand}
    {out : GlyphEntry × TextureAtlasPool × TextureIdAllocator × List TextureCommand}
    (h : TextureCache.loadGlyphStep env key g pool ida cmds = Except.ok out) :
    noStaticExt cmds out.2.2.2 := by
  unfold TextureCache.loadGlyphStep at h
  split at h
  · cases h; exact noStaticExt_refl cmds
  · split at h
    · cases h; exact noStaticExt_refl cmds
    · split at h
      · cases h; exact noStaticExt_refl cmds
      · rename_i image offset hr
        split at h
        · cases h
        · rename_i allocId rect pool1 ida1 cmds1 hA
          cases h
          have hP := poolAlloc_noStatic pool ida cmds image MipmapMode.disabled
          rw [hA] at hP
          exact hP

theorem loadGlyphsGo_noStatic (env : GlyphLoadEnv) :
    ∀ (l : List (GlyphKey × GlyphEntry)) (pool : TextureAtlasPool)
      (ida : TextureIdAllocator) (cmds : List TextureCommand) out,
      TextureCache.loadGlyphsGo env l pool ida cmds = Except.ok out →
      noStaticExt cmds out.2.2.2
  | [], pool, ida, cmds, out, h => by
    unfold TextureCache.loadGlyphsGo at h
    cases h
    exact noStaticExt_refl cmds
  | (key, g) :: rest, pool, ida, cmds, out, h => by
    unfold TextureCache.loadGlyphsGo at h
    split at h
    · cases h
    · rename_i g1 pool1 ida1 cmds1 hs
      have h1 : noStaticExt cmds cmds1 := by
        have := loadGlyphStep_noStatic hs
        exact this
      split at h
      · cases h
      · rename_i l2 pool2 ida2 cmds2 hgo
        cases h
        exact noStaticExt_trans h1
          (loadGlyphsGo_noStatic env rest pool1 ida1 cmds1 (l2, pool2, ida2, cmds2) hgo)

theorem loadGlyphs_noStatic {env : GlyphLoadEnv} {c : TextureCache}
    {cmds : List TextureCommand} {out : TextureCache × List TextureCommand}
    (h : TextureCache.loadGlyphs env c cmds = Except.ok out) :
    noStaticExt cmds out.2 := by
  unfold TextureCache.loadGlyphs at h
  split at h
  · cases h
  · rename_i glyphs1 pool1 ida1 cmds1 hgo
    cases h
    exact loadGlyphsGo_noStatic env c.glyphs c.atlases c.idAllocator cmds _ hgo

/-- C5 (counterexample): a glyph whose rasterized bitmap is 2048×2048 — at or
above the 1024×1024 standalone threshold in both axes — is placed in the
shared atlas pool (its entry holds an atlas region, the emitted commands are a
dynamic atlas create plus a write, no `CreateStatic`), so glyphs do not follow
the images' standalone-size rule. -/
theorem glyph_standalone_cex :
    TextureCache.MIN_STANDALONE_SIZE = ⟨1024, 1024⟩ ∧
    (assocFind glyphKeyA hugeGlyphCache.glyphs).map GlyphEntry.allocId =
      some (some (0, 0)) ∧
    TextureCache.getGlyph hugeGlyphCache glyphKeyA =
      some ⟨⟨0⟩, ImageFormat.gray8, ⟨2048, 2048⟩, ⟨⟨0, 0⟩, ⟨2048, 2048⟩⟩, Vec2.ZERO⟩ ∧
    hugeGlyphCmds =
      [TextureCommand.createDynamic ⟨0⟩ ImageFormat.gray8 ⟨2048, 2048⟩
        MipmapMode.disabled,
       TextureCommand.write ⟨0⟩ ⟨⟨0, 0⟩, ⟨2048, 2048⟩⟩
        ⟨ImageFormat.gray8, ⟨2048, 2048⟩⟩] := by
  exact ⟨rfl, by decide, by decide, by decide⟩

/-- C5 (amended): image placement is decided purely by the decoded pixel size:
an image whose decoded size reaches the 1024×1024 threshold in either axis
gets a dedicated texture (never an atlas region, regardless of the pool's
free space), an image below the threshold in both axes is atlas-allocated;
glyph bitmaps, however, are always allocated from the shared atlas pool —
`load_glyphs` has no standalone branch and never emits a `CreateStatic`. -/
theorem standalone_threshold_amended :
    (∀ (e : ImageEntry) (rs : Option UVec2) (d : ImageData)
       (pool : TextureAtlasPool) (ida : TextureIdAllocator)
       (cmds : List TextureCommand)
       (out : ImageEntry × TextureAtlasPool × TextureIdAllocator ×
         List TextureCommand),
       TextureCache.loadImageFinish e rs d pool ida cmds = Except.ok out →
       ((TextureCache.MIN_STANDALONE_SIZE.x ≤ d.size.x ∨
           TextureCache.MIN_STANDALONE_SIZE.y ≤ d.size.y) →
          out.1.texture = some ida.nextId ∧ out.1.allocId = e.allocId ∧
          out.2.1 = pool ∧
          out.2.2.2 = cmds ++
            [TextureCommand.createStatic ida.nextId d e.mipmapMode]) ∧
       (¬(TextureCache.MIN_STANDALONE_SIZE.x ≤ d.size.x ∨
           TextureCache.MIN_STANDALONE_SIZE.y ≤ d.size.y) →
          out.1.texture = e.texture ∧ out.1.allocId.isSome = true)) ∧
    (∀ (env : GlyphLoadEnv) (c : TextureCache) (cmds : List TextureCommand)
       (out : TextureCache × List TextureCommand),
       TextureCache.loadGlyphs env c cmds = Except.ok out →
       noStaticExt cmds out.2) := by
  constructor
  · intro e rs d pool ida cmds out h
    dsimp only [TextureCache.loadImageFinish, TextureIdAllocator.alloc] at h
    constructor
    · intro hbig
      rw [if_pos hbig] at h
      cases h
      refine ⟨rfl, ?_, rfl, ?_⟩ <;> split <;> rfl
    · intro hsmall
      rw [if_neg hsmall] at h
      split at h
      · cases h
      · rename_i allocId rect pool1 ida1 cmds1 hA
        cases h
        constructor
        · split <;> rfl
        · simp
  · intro env c cmds out h
    exact loadGlyphs_noStatic h

theorem standalone_threshold_amended_witness :
    (TextureCache.loadImageFinish
        ⟨none, none, MipmapMode.enabled, none, URect.ZERO, none, UVec2.ZERO,
         UVec2.ZERO⟩
        none ⟨ImageFormat.srgba8, ⟨1500, 8⟩⟩ ⟨[], 0⟩ ⟨⟨3⟩⟩ [] =
      Except.ok
        (⟨none, none, MipmapMode.enabled, some ⟨3⟩, ⟨⟨0, 0⟩, ⟨1500, 8⟩⟩, none,
          UVec2.ZERO, UVec2.ZERO⟩, ⟨[], 0⟩, ⟨⟨4⟩⟩,
         [TextureCommand.createStatic ⟨3⟩ ⟨ImageFormat.srgba8, ⟨1500, 8⟩⟩
           MipmapMode.enabled])) ∧
    (TextureCache.MIN_STANDALONE_SIZE.x ≤ 1500 ∨
      TextureCache.MIN_STANDALONE_SIZE.y ≤ 8) ∧
    ((⟨none, none, MipmapMode.enabled, some ⟨3⟩, ⟨⟨0, 0⟩, ⟨1500, 8⟩⟩, none,
        UVec2.ZERO, UVec2.ZERO⟩ : ImageEntry).texture = some (⟨⟨3⟩⟩ :
          TextureIdAllocator).nextId) ∧
    TextureCache.loadGlyphs smallGlyphEnv
        (TextureCache.addGlyph glyphKeyA TextureCache.new) [] =
      Except.ok (loadedGlyphCache,
        [TextureCommand.createDynamic ⟨0⟩ ImageFormat.gray8 ⟨512, 512⟩
          MipmapMode.disabled,
         TextureCommand.write ⟨0⟩ ⟨⟨0, 0⟩, ⟨10, 10⟩⟩
          ⟨ImageFormat.gray8, ⟨10, 10⟩⟩]) ∧
    noStaticExt []
      [TextureCommand.createDynamic ⟨0⟩ ImageFormat.gray8 ⟨512, 512⟩
        MipmapMode.disabled,
       TextureCommand.write ⟨0⟩ ⟨⟨0, 0⟩, ⟨10, 10⟩⟩
        ⟨ImageFormat.gray8, ⟨10, 10⟩⟩] := by
  refine ⟨rfl, by decide, ?_, rfl, ?_⟩
  · exact ((standalone_threshold_amended.1
      ⟨none, none, MipmapMode.enabled, none, URect.ZERO, none, UVec2.ZERO,
        UVec2.ZERO⟩
      none ⟨ImageFormat.srgba8, ⟨1500, 8⟩⟩ ⟨[], 0⟩ ⟨⟨3⟩⟩ []
      (⟨none, none, MipmapMode.enabled, some ⟨3⟩, ⟨⟨0, 0⟩, ⟨1500, 8⟩⟩, none,
         UVec2.ZERO, UVec2.ZERO⟩, ⟨[], 0⟩, ⟨⟨4⟩⟩,
       [TextureCommand.createStatic ⟨3⟩ ⟨ImageFormat.srgba8, ⟨1500, 8⟩⟩
         MipmapMode.enabled])
      rfl).1 (by decide)).1
  · exact standalone_threshold_amended.2 smallGlyphEnv
      (TextureCache.addGlyph glyphKeyA TextureCache.new) []
      (loadedGlyphCache,
        [TextureCommand.createDynamic ⟨0⟩ ImageFormat.gray8 ⟨512, 512⟩
          MipmapMode.disabled,
         TextureCommand.write ⟨0⟩ ⟨⟨0, 0⟩, ⟨10, 10⟩⟩
          ⟨ImageFormat.gray8, ⟨10, 10⟩⟩]) rfl

theorem Batcher.flush_drawData (b : Batcher) : b.flush.drawData = b.drawData := by
  unfold Batcher.flush
  split <;> rfl

theorem Batcher.setClear_drawData (v : Bool) (b : Batcher) :
    (b.setClear v).drawData = b.drawData := by
  unfold Batcher.setClear
  split
  · exact b.flush_drawData
  · rfl

theorem Batcher.setSource_drawData (s : Source) (b : Batcher) :
    (b.setSource s).drawData = b.drawData := by
  unfold Batcher.setSource
  split
  · exact b.flush_drawData
  · rfl

theorem Batcher.setTarget_drawData (t : Target) (b : Batcher) :
    (b.setTarget t).drawData = b.drawData := by
  unfold Batcher.setTarget
  split
  · exact b.flush_drawData
  · rfl

/-- C9: `Batcher::prepare` on a draw list whose command slice is empty
returns early: every buffer and every piece of batcher state is unchanged. -/
theorem prepare_empty_noop (env : TextureCacheView) (surface : ℕ) (b : Batcher) :
    Batcher.prepare env ⟨surface, []⟩ b = b := rfl

/-- C6: the draw list `[Clear(WHITE full-surface), Rect((10,10),(50,50), solid
red)]` produces exactly two batches: a clear batch (6 indices for the clear
quad) and a non-clear batch with a single quad (6 indices, range 6..12), both
targeting the same surface with source white. -/
theorem clear_rect_scenario :
    (Batcher.prepare unresolvedView clearRectList (Batcher.new 1024)).batches =
      [{ clear := true, msaaResolve := false, target := Target.surface 7,
         source := Source.white, indexStart := 0, indexEnd := 6,
         vertexStart := 0, vertexEnd := 4, instanceBufferId := 0 },
       { clear := false, msaaResolve := false, target := Target.surface 7,
         source := Source.white, indexStart := 6, indexEnd := 12,
         vertexStart := 4, vertexEnd := 8, instanceBufferId := 0 }] := by
  decide

/-- C2 (counterexample): a rect whose image fill the cache reports unresolved
is not dropped — the batcher still emits a full quad (6 indices, 4 vertices)
for it, sampling the white source. -/
theorem unresolved_image_still_draws_cex :
    unresolvedView.getImage 5 = none ∧
    (Batcher.cmdDrawRect unresolvedView unresolvedImageRect
        (Batcher.new 1024)).indices.length = 6 ∧
    (Batcher.cmdDrawRect unresolvedView unresolvedImageRect
        (Batcher.new 1024)).vertices.length = 4 ∧
    (Batcher.new 1024).indices.length = 0 := by
  exact ⟨rfl, by decide, by decide, by decide⟩

/-- C2 (amended): an unresolved glyph is dropped silently — no vertices,
indices, instances or intermediates are emitted for it and processing
continues — while a rect or path with an unresolved image fill falls back to
the flat white source with zero texture coordinates (the primitive is still
drawn, tinted by the fill's tint); neither case raises an error. -/
theorem unresolved_refs_amended (env : TextureCacheView) (g : DrawGlyph)
    (f : FillImage) (b : Batcher)
    (hg : env.getGlyph
      { font := g.font, glyph := g.glyph, size := g.size,
        subpixelBin := SubpixelBin.new g.pos } = none)
    (hf : env.getImage f.image = none) :
    (Batcher.cmdDrawGlyph env g b).drawData = b.drawData ∧
    Batcher.getFill env (Fill.image f) =
      (f.tint, Source.white, Vec2.ZERO, Vec2.ZERO) := by
  constructor
  · unfold Batcher.cmdDrawGlyph
    simp only [hg]
    exact b.setClear_drawData false
  · unfold Batcher.getFill
    simp only [hf]

theorem unresolved_refs_amended_witness :
    (unresolvedView.getGlyph
      { font := 3, glyph := 4, size := 12,
        subpixelBin := SubpixelBin.new Vec2.ZERO } = none) ∧
    (unresolvedView.getImage 5 = none) ∧
    (Batcher.cmdDrawGlyph unresolvedView ⟨Vec2.ZERO, 12, 3, 4, Color.BLACK⟩
        (Batcher.new 1024)).drawData = (Batcher.new 1024).drawData ∧
    Batcher.getFill unresolvedView (Fill.image ⟨5, Color.BLACK, none⟩) =
      (Color.BLACK, Source.white, Vec2.ZERO, Vec2.ZERO) := by
  refine ⟨rfl, rfl, ?_, ?_⟩
  · exact (unresolved_refs_amended unresolvedView ⟨Vec2.ZERO, 12, 3, 4, Color.BLACK⟩
      ⟨5, Color.BLACK, none⟩ (Batcher.new 1024) rfl rfl).1
  · exact (unresolved_refs_amended unresolvedView ⟨Vec2.ZERO, 12, 3, 4, Color.BLACK⟩
      ⟨5, Color.BLACK, none⟩ (Batcher.new 1024) rfl rfl).2

/-- C3 (code evaluated at the failing input): a glyph registered and loaded in
one frame, then referenced by nothing in the next frame, survives that frame's
`TextureCache::cleanup` still resolved: `add_glyph`'s `or_insert` never
re-marks and nothing ever clears the `used` flag set at insertion, so the
`retain(used)` sweep keeps every glyph forever and frees nothing. -/
theorem unused_glyph_survives_cleanup :
    (TextureCache.getGlyph loadedGlyphCache glyphKeyA).isSome = true ∧
    TextureCache.addGlyphsFromCommands [] loadedGlyphCache = loadedGlyphCache ∧
    (TextureCache.cleanup loadedGlyphCache []).1.glyphs = loadedGlyphCache.glyphs ∧
    (TextureCache.getGlyph (TextureCache.cleanup loadedGlyphCache []).1
        glyphKeyA).isSome = true ∧
    (TextureCache.cleanup loadedGlyphCache []).2 = [] := by
  exact ⟨by decide, rfl, by decide, by decide, by decide⟩

theorem allocSeq_eq_map :
    ∀ (n s : ℕ),
      TextureIdAllocator.allocSeq ⟨⟨s⟩⟩ n = (List.range n).map fun k => ⟨s + k⟩
  | 0, _ => rfl
  | n + 1, s => by
    have ih := allocSeq_eq_map n (s + 1)
    have hf : (fun k => (⟨s + 1 + k⟩ : TextureId)) =
        fun k => (⟨s + (k + 1)⟩ : TextureId) := by
      funext k
      congr 1
      omega
    simp only [TextureIdAllocator.allocSeq, TextureIdAllocator.alloc]
    rw [ih, List.range_succ_eq_map]
    simp only [List.map_cons, List.map_map, Nat.add_zero]
    rw [hf]
    rfl

theorem tryAlloc_texture {a : TextureAtlas} {cmds : List TextureCommand}
    {size : UVec2} {data : ImageData}
    {res : (ℕ × URect) × TextureAtlas × List TextureCommand}
    (h : a.tryAlloc cmds size data = some res) : res.2.1.texture = a.texture := by
  unfold TextureAtlas.tryAlloc at h
  split at h
  · cases h
  · cases h; rfl

theorem tryAlloc_size {a : TextureAtlas} {cmds : List TextureCommand}
    {size : UVec2} {data : ImageData}
    {res : (ℕ × URect) × TextureAtlas × List TextureCommand}
    (h : a.tryAlloc cmds size data = some res) : res.2.1.size = a.size := by
  unfold TextureAtlas.tryAlloc at h
  split at h
  · cases h
  · cases h; rfl

/-- C10: texture ids are distinct over the cache's lifetime — the allocator is
a strictly increasing counter, so any sequence of `alloc` calls yields
pairwise distinct ids; and in `TextureAtlas::alloc`'s growth branch the fresh
id minted for the grown atlas differs from the old atlas texture's id
(whenever the old id was itself issued earlier, i.e. is below the counter). -/
theorem texture_ids_distinct :
    (∀ (a : TextureIdAllocator) (n : ℕ),
       (a.allocSeq n).Pairwise (· ≠ ·)) ∧
    (∀ (a : TextureAtlas) (ida : TextureIdAllocator) (cmds : List TextureCommand)
       (size : UVec2) (data : ImageData),
       a.texture.val < ida.nextId.val →
       a.allocator.allocate size = none →
       ¬(TextureAtlas.MAX_SIZE ≤ (growLoop (a.size * 2) size).x ∨
           TextureAtlas.MAX_SIZE ≤ (growLoop (a.size * 2) size).y) →
       (TextureAtlas.alloc a ida cmds size data).2.1.texture = ida.nextId ∧
         ida.nextId ≠ a.texture) := by
  constructor
  · intro a n
    obtain ⟨⟨s⟩⟩ := a
    rw [allocSeq_eq_map]
    refine List.Pairwise.map _ (fun i j (hij : i < j) => ?_)
      (List.pairwise_lt_range n)
    simp only [ne_eq, TextureId.mk.injEq]
    omega
  · intro a ida cmds size data hlt hfail hmax
    have ht : a.tryAlloc cmds size data = none := by
      unfold TextureAtlas.tryAlloc
      rw [hfail]
    constructor
    · unfold TextureAtlas.alloc
      rw [ht]
      dsimp only [TextureIdAllocator.alloc]
      rw [if_neg hmax]
      split
      · rename_i res a2 c2 heq2
        rw [tryAlloc_texture heq2]
      · rfl
    · intro he
      have : a.texture.val < a.texture.val := by rw [he] at hlt; exact hlt
      omega

theorem texture_ids_distinct_witness :
    (fullAtlas512.texture.val < (⟨⟨9⟩⟩ : TextureIdAllocator).nextId.val) ∧
    (fullAtlas512.allocator.allocate ⟨100, 100⟩ = none) ∧
    ¬(TextureAtlas.MAX_SIZE ≤ (growLoop (fullAtlas512.size * 2) ⟨100, 100⟩).x ∨
        TextureAtlas.MAX_SIZE ≤ (growLoop (fullAtlas512.size * 2) ⟨100, 100⟩).y) ∧
    ((TextureAtlas.alloc fullAtlas512 ⟨⟨9⟩⟩ [] ⟨100, 100⟩ smallData).2.1.texture =
        (⟨⟨9⟩⟩ : TextureIdAllocator).nextId ∧
      (⟨⟨9⟩⟩ : TextureIdAllocator).nextId ≠ fullAtlas512.texture) ∧
    ((⟨⟨0⟩⟩ : TextureIdAllocator).allocSeq 3).Pairwise (· ≠ ·) := by
  have hsize : fullAtlas512.size * 2 = (⟨1024, 1024⟩ : UVec2) := rfl
  have hgrow : growLoop (fullAtlas512.size * 2) ⟨100, 100⟩ = ⟨1024, 1024⟩ := by
    rw [hsize, growLoop]
    norm_num
  have hmax : ¬(TextureAtlas.MAX_SIZE ≤
        (growLoop (fullAtlas512.size * 2) ⟨100, 100⟩).x ∨
      TextureAtlas.MAX_SIZE ≤ (growLoop (fullAtlas512.size * 2) ⟨100, 100⟩).y) := by
    rw [hgrow]
    norm_num [TextureAtlas.MAX_SIZE]
  refine ⟨by decide, by decide, hmax, ?_, ?_⟩
  · exact texture_ids_distinct.2 fullAtlas512 ⟨⟨9⟩⟩ [] ⟨100, 100⟩ smallData
      (by decide) (by decide) hmax
  · exact texture_ids_distinct.1 ⟨⟨0⟩⟩ 3

theorem growLoop_covers (n req : UVec2) (hx : 0 < n.x) (hy : 0 < n.y) :
    req.x ≤ (growLoop n req).x ∧ req.y ≤ (growLoop n req).y := by
  rw [growLoop]
  split
  · rename_i h
    exact growLoop_covers ⟨n.x * 2, n.y * 2⟩ req
      (show 0 < n.x * 2 by omega) (show 0 < n.y * 2 by omega)
  · rename_i h
    constructor <;> omega
termination_by (req.x - n.x) + (req.y - n.y)
decreasing_by simp_wf; omega

/-- C4 (amended): when the bin-pack fails, `TextureAtlas::alloc` doubles the
atlas size (both axes, repeatedly until the request fits componentwise); if
the doubled size reaches or exceeds the 4096 hard maximum in either axis the
allocation fails with the atlas untouched; otherwise one `CreateDynamic` for
the grown texture and one `Copy` spanning the entire previous extent into its
origin are emitted before the pack is retried, and the atlas now has the grown
size and the fresh texture id (so previously allocated regions remain valid
in the migrated texture). -/
theorem atlas_grow_amended (a : TextureAtlas) (ida : TextureIdAllocator)
    (cmds : List TextureCommand) (size : UVec2) (data : ImageData)
    (hfail : a.allocator.allocate size = none) :
    (0 < a.size.x → 0 < a.size.y →
       size.x ≤ (growLoop (a.size * 2) size).x ∧
       size.y ≤ (growLoop (a.size * 2) size).y) ∧
    ((TextureAtlas.MAX_SIZE ≤ (growLoop (a.size * 2) size).x ∨
        TextureAtlas.MAX_SIZE ≤ (growLoop (a.size * 2) size).y) →
       TextureAtlas.alloc a ida cmds size data = (none, a, ida, cmds)) ∧
    (¬(TextureAtlas.MAX_SIZE ≤ (growLoop (a.size * 2) size).x ∨
        TextureAtlas.MAX_SIZE ≤ (growLoop (a.size * 2) size).y) →
       ∃ rest,
         (TextureAtlas.alloc a ida cmds size data).2.2.2 =
           cmds ++
             [TextureCommand.createDynamic ida.nextId a.format
               (growLoop (a.size * 2) size) a.mipmapMode,
              TextureCommand.copy a.texture ida.nextId ⟨UVec2.ZERO, a.size⟩
               ⟨UVec2.ZERO, a.size⟩] ++ rest ∧
         (TextureAtlas.alloc a ida cmds size data).2.1.size =
           growLoop (a.size * 2) size ∧
         (TextureAtlas.alloc a ida cmds size data).2.1.texture = ida.nextId) := by
  have ht : a.tryAlloc cmds size data = none := by
    unfold TextureAtlas.tryAlloc
    rw [hfail]
  refine ⟨?_, ?_, ?_⟩
  · intro hx hy
    exact growLoop_covers (a.size * 2) size
      (show 0 < a.size.x * 2 by omega) (show 0 < a.size.y * 2 by omega)
  · intro hmax
    unfold TextureAtlas.alloc
    rw [ht]
    dsimp only
    rw [if_pos hmax]
  · intro hmax
    unfold TextureAtlas.alloc
    rw [ht]
    dsimp only [TextureIdAllocator.alloc]
    rw [if_neg hmax]
    split
    · rename_i res a2 c2 heq2
      obtain ⟨extra, hc2, -⟩ := tryAlloc_noStatic heq2
      refine ⟨extra, ?_, ?_, ?_⟩
      · simpa [List.append_assoc] using hc2
      · rw [tryAlloc_size heq2]
      · rw [tryAlloc_texture heq2]
    · exact ⟨[], by simp, rfl, rfl⟩

/-- C4 (counterexample): a full 2048×2048 atlas asked for a 100×100 region
fails the pack; doubling would make it exactly 4096 — the hard maximum
itself, not beyond it — and the request would easily fit there, yet the
allocation fails with the atlas unchanged (the size guard is
`new_size >= MAX_SIZE`, so growth to the maximum size is refused). -/
theorem atlas_grow_fail_at_max_cex :
    fullAtlas.allocator.allocate ⟨100, 100⟩ = none ∧
    growLoop (fullAtlas.size * 2) ⟨100, 100⟩ = ⟨4096, 4096⟩ ∧
    TextureAtlas.MAX_SIZE = 4096 ∧
    TextureAtlas.alloc fullAtlas ⟨⟨9⟩⟩ [] ⟨100, 100⟩ smallData =
      (none, fullAtlas, ⟨⟨9⟩⟩, []) := by
  have hsize : fullAtlas.size * 2 = (⟨4096, 4096⟩ : UVec2) := rfl
  have hgrow : growLoop (fullAtlas.size * 2) ⟨100, 100⟩ = ⟨4096, 4096⟩ := by
    rw [hsize, growLoop]
    norm_num
  have ht : fullAtlas.tryAlloc [] ⟨100, 100⟩ smallData = none := by decide
  refine ⟨by decide, hgrow, rfl, ?_⟩
  unfold TextureAtlas.alloc
  rw [ht]
  dsimp only
  rw [hgrow, if_pos (by decide)]

theorem atlas_grow_amended_witness :
    (fullAtlas512.allocator.allocate ⟨100, 100⟩ = none) ∧
    (0 < fullAtlas512.size.x → 0 < fullAtlas512.size.y →
       (100 : ℕ) ≤ (growLoop (fullAtlas512.size * 2) ⟨100, 100⟩).x ∧
       (100 : ℕ) ≤ (growLoop (fullAtlas512.size * 2) ⟨100, 100⟩).y) ∧
    (¬(TextureAtlas.MAX_SIZE ≤ (growLoop (fullAtlas512.size * 2) ⟨100, 100⟩).x ∨
        TextureAtlas.MAX_SIZE ≤ (growLoop (fullAtlas512.size * 2) ⟨100, 100⟩).y) →
       ∃ rest,
         (TextureAtlas.alloc fullAtlas512 ⟨⟨9⟩⟩ [] ⟨100, 100⟩ smallData).2.2.2 =
           [] ++
             [TextureCommand.createDynamic (⟨⟨9⟩⟩ : TextureIdAllocator).nextId
               fullAtlas512.format (growLoop (fullAtlas512.size * 2) ⟨100, 100⟩)
               fullAtlas512.mipmapMode,
              TextureCommand.copy fullAtlas512.texture
               (⟨⟨9⟩⟩ : TextureIdAllocator).nextId ⟨UVec2.ZERO, fullAtlas512.size⟩
               ⟨UVec2.ZERO, fullAtlas512.size⟩] ++ rest ∧
         (TextureAtlas.alloc fullAtlas512 ⟨⟨9⟩⟩ [] ⟨100, 100⟩
             smallData).2.1.size = growLoop (fullAtlas512.size * 2) ⟨100, 100⟩ ∧
         (TextureAtlas.alloc fullAtlas512 ⟨⟨9⟩⟩ [] ⟨100, 100⟩
             smallData).2.1.texture = (⟨⟨9⟩⟩ : TextureIdAllocator).nextId) := by
  refine ⟨by decide, ?_, ?_⟩
  · exact (atlas_grow_amended fullAtlas512 ⟨⟨9⟩⟩ [] ⟨100, 100⟩ smallData
      (by decide)).1
  · exact (atlas_grow_amended fullAtlas512 ⟨⟨9⟩⟩ [] ⟨100, 100⟩ smallData
      (by decide)).2.2

theorem Batcher.drawData_ext {b b' : Batcher} (h : b.drawData = b'.drawData) :
    b.vertices = b'.vertices ∧ b.indices = b'.indices ∧
    b.instances = b'.instances ∧ b.intermediates = b'.intermediates ∧
    b.transformStack = b'.transformStack ∧
    b.maxInstancesPerBuffer = b'.maxInstancesPerBuffer := by
  cases b
  cases b'
  simpa [Batcher.drawData, DrawData.mk.injEq] using h

theorem Batcher.addVertex_congr (v : Vertex) {b b' : Batcher}
    (h : b.drawData = b'.drawData) :
    (b.addVertex v).1.drawData = (b'.addVertex v).1.drawData ∧
    (b.addVertex v).2 = (b'.addVertex v).2 := by
  obtain ⟨h1, h2, h3, h4, h5, h6⟩ := Batcher.drawData_ext h
  unfold Batcher.addVertex
  constructor
  · simp [Batcher.drawData, h1, h2, h3, h4, h5, h6]
  · simp [h1]

theorem Batcher.addQuad_congr (q : Quad) {b b' : Batcher}
    (h : b.drawData = b'.drawData) :
    (b.addQuad q).drawData = (b'.addQuad q).drawData := by
  have s1 := Batcher.addVertex_congr
    { pos := ⟨q.min.x, q.min.y⟩, localPos := ⟨q.localMin.x, q.localMin.y⟩,
      tex := ⟨q.texMin.x, q.texMin.y⟩, color := q.color,
      instanceId := q.instanceId } h
  have s2 := Batcher.addVertex_congr
    { pos := ⟨q.max.x, q.min.y⟩, localPos := ⟨q.localMax.x, q.localMin.y⟩,
      tex := ⟨q.texMax.x, q.texMin.y⟩, color := q.color,
      instanceId := q.instanceId } s1.1
  have s3 := Batcher.addVertex_congr
    { pos := ⟨q.max.x, q.max.y⟩, localPos := ⟨q.localMax.x, q.localMax.y⟩,
      tex := ⟨q.texMax.x, q.texMax.y⟩, color := q.color,
      instanceId := q.instanceId } s2.1
  have s4 := Batcher.addVertex_congr
    { pos := ⟨q.min.x, q.max.y⟩, localPos := ⟨q.localMin.x, q.localMax.y⟩,
      tex := ⟨q.texMin.x, q.texMax.y⟩, color := q.color,
      instanceId := q.instanceId } s3.1
  obtain ⟨e1, e2, e3, e4, e5, e6⟩ := Batcher.drawData_ext s4.1
  unfold Batcher.addQuad
  dsimp only
  simp only [Batcher.drawData] at *
  rw [e1, e2, e3, e4, e5, e6, s1.2, s2.2, s3.2, s4.2]

theorem Batcher.flush_vertices (b : Batcher) : b.flush.vertices = b.vertices := by
  unfold Batcher.flush
  split <;> rfl

theorem Batcher.flush_indices (b : Batcher) : b.flush.indices = b.indices := by
  unfold Batcher.flush
  split <;> rfl

theorem Batcher.flush_instances (b : Batcher) :
    b.flush.instances = b.instances := by
  unfold Batcher.flush
  split <;> rfl

theorem Batcher.flush_intermediates (b : Batcher) :
    b.flush.intermediates = b.intermediates := by
  unfold Batcher.flush
  split <;> rfl

theorem Batcher.flush_transformStack (b : Batcher) :
    b.flush.transformStack = b.transformStack := by
  unfold Batcher.flush
  split <;> rfl

theorem Batcher.flush_maxInstances (b : Batcher) :
    b.flush.maxInstancesPerBuffer = b.maxInstancesPerBuffer := by
  unfold Batcher.flush
  split <;> rfl

theorem Batcher.addInstance_congr (i : Instance) {b b' : Batcher}
    (h : b.drawData = b'.drawData) :
    (b.addInstance i).1.drawData = (b'.addInstance i).1.drawData ∧
    (b.addInstance i).2 = (b'.addInstance i).2 := by
  obtain ⟨h1, h2, h3, h4, h5, h6⟩ := Batcher.drawData_ext h
  unfold Batcher.addInstance
  rw [h3, h6]
  split
  · constructor
    · simp [Batcher.drawData, Batcher.flush_vertices, Batcher.flush_indices,
        Batcher.flush_instances, Batcher.flush_intermediates,
        Batcher.flush_transformStack, Batcher.flush_maxInstances,
        h1, h2, h3, h4, h5, h6]
    · simp [Batcher.flush_instances, h3]
  · constructor
    · simp [Batcher.drawData, h1, h2, h3, h4, h5, h6]
    · simp [h3]

theorem Batcher.drawMesh_congr (origin : Vec2) (mesh : Mesh) (color : Color)
    (texMin texMax : Vec2) {b b' : Batcher} (h : b.drawData = b'.drawData) :
    (Batcher.drawMesh origin mesh color texMin texMax b).drawData =
    (Batcher.drawMesh origin mesh color texMin texMax b').drawData := by
  obtain ⟨h1, h2, h3, h4, h5, h6⟩ := Batcher.drawData_ext h
  unfold Batcher.drawMesh
  cases mesh.boundingRect
  · exact h
  · simp [Batcher.drawData, h1, h2, h3, h4, h5, h6]

theorem Batcher.allocIntermediate_congr (size : UVec2) (msaa : Bool)
    {b b' : Batcher} (h : b.drawData = b'.drawData) :
    (b.allocIntermediate size msaa).1.drawData =
      (b'.allocIntermediate size msaa).1.drawData ∧
    (b.allocIntermediate size msaa).2 = (b'.allocIntermediate size msaa).2 := by
  obtain ⟨h1, h2, h3, h4, h5, h6⟩ := Batcher.drawData_ext h
  unfold Batcher.allocIntermediate
  constructor
  · simp [Batcher.drawData, h1, h2, h3, h4, h5, h6]
  · simp [h4]

theorem Batcher.pushTransform_congr (t : Affine2) {b b' : Batcher}
    (h : b.drawData = b'.drawData) :
    (b.pushTransform t).drawData = (b'.pushTransform t).drawData := by
  obtain ⟨h1, h2, h3, h4, h5, h6⟩ := Batcher.drawData_ext h
  unfold Batcher.pushTransform
  simp [Batcher.drawData, h1, h2, h3, h4, h5, h6]

theorem Batcher.popTransform_congr {b b' : Batcher}
    (h : b.drawData = b'.drawData) :
    b.popTransform.drawData = b'.popTransform.drawData := by
  obtain ⟨h1, h2, h3, h4, h5, h6⟩ := Batcher.drawData_ext h
  unfold Batcher.popTransform
  simp [Batcher.drawData, h1, h2, h3, h4, h5, h6]

theorem Batcher.pushRaw_congr (t : Affine2) {b b' : Batcher}
    (h : b.drawData = b'.drawData) :
    (b.pushRaw t).drawData = (b'.pushRaw t).drawData := by
  obtain ⟨h1, h2, h3, h4, h5, h6⟩ := Batcher.drawData_ext h
  unfold Batcher.pushRaw
  simp [Batcher.drawData, h1, h2, h3, h4, h5, h6]

theorem Batcher.markLastMsaa_drawData (id : ℕ) (b : Batcher) :
    (b.markLastMsaa id).drawData = b.drawData := rfl

theorem Batcher.cmdClearRect_congr (r : ClearRect) {b b' : Batcher}
    (h : b.drawData = b'.drawData) :
    (b.cmdClearRect r).drawData = (b'.cmdClearRect r).drawData := by
  unfold Batcher.cmdClearRect
  exact Batcher.addQuad_congr _
    (by rw [Batcher.setSource_drawData, Batcher.setClear_drawData,
      Batcher.setSource_drawData, Batcher.setClear_drawData, h])

theorem Batcher.cmdDrawRect_congr (env : TextureCacheView) (r : DrawRect)
    {b b' : Batcher} (h : b.drawData = b'.drawData) :
    (b.cmdDrawRect env r).drawData = (b'.cmdDrawRect env r).drawData := by
  unfold Batcher.cmdDrawRect
  dsimp only
  have h0 : ((b.setClear false).setSource
        (Batcher.getFill env r.fill).2.1).drawData =
      ((b'.setClear false).setSource (Batcher.getFill env r.fill).2.1).drawData := by
    rw [Batcher.setSource_drawData, Batcher.setClear_drawData,
      Batcher.setSource_drawData, Batcher.setClear_drawData, h]
  split
  · exact Batcher.addQuad_congr _ h0
  · have hi := Batcher.addInstance_congr
      { cornerRadii := r.cornerRadii.toVec4
        borderColor := ((r.border.map Border.color).getD Color.TRANSPAENT).toVec4
        shadowColor := ((r.shadow.map Shadow.color).getD Color.TRANSPAENT).toVec4
        shadowOffset := (r.shadow.map Shadow.offset).getD Vec2.ZERO
        size := r.size
        borderWidth := (r.border.map Border.width).getD 0
        shadowBlurRadius := (r.shadow.map Shadow.blurRadius).getD 0
        shadowSpreadRadius := (r.shadow.map Shadow.spreadRadius).getD 0 } h0
    rw [hi.2]
    exact Batcher.addQuad_congr _ hi.1

theorem Batcher.cmdDrawGlyph_congr (env : TextureCacheView) (g : DrawGlyph)
    {b b' : Batcher} (h : b.drawData = b'.drawData) :
    (b.cmdDrawGlyph env g).drawData = (b'.cmdDrawGlyph env g).drawData := by
  unfold Batcher.cmdDrawGlyph
  dsimp only
  have h0 : (b.setClear false).drawData = (b'.setClear false).drawData := by
    rw [Batcher.setClear_drawData, Batcher.setClear_drawData, h]
  cases env.getGlyph
      { font := g.font, glyph := g.glyph, size := g.size,
        subpixelBin := SubpixelBin.new g.pos }
  · exact h0
  · exact Batcher.addQuad_congr _
      (by rw [Batcher.setSource_drawData, Batcher.setSource_drawData, h0])

theorem Batcher.cmdFillPath_congr (env : TextureCacheView) (p : FillPath)
    {b b' : Batcher} (h : b.drawData = b'.drawData) :
    (b.cmdFillPath env p).drawData = (b'.cmdFillPath env p).drawData := by
  unfold Batcher.cmdFillPath
  dsimp only
  exact Batcher.drawMesh_congr _ _ _ _ _
    (by rw [Batcher.setSource_drawData, Batcher.setSource_drawData, h])

theorem Batcher.cmdStrokePath_congr (env : TextureCacheView) (p : StrokePath)
    {b b' : Batcher} (h : b.drawData = b'.drawData) :
    (b.cmdStrokePath env p).drawData = (b'.cmdStrokePath env p).drawData := by
  unfold Batcher.cmdStrokePath
  dsimp only
  exact Batcher.drawMesh_congr _ _ _ _ _
    (by rw [Batcher.setSource_drawData, Batcher.setSource_drawData, h])

theorem Batcher.intermediateLayerCore_congr (br : Option Rect)
    (f : Batcher → Batcher) (tint : Color) (tr : Affine2) (msaa : Bool)
    (hf : ∀ x x' : Batcher, x.drawData = x'.drawData →
      (f x).drawData = (f x').drawData)
    {b b' : Batcher} (h : b.drawData = b'.drawData) :
    (Batcher.intermediateLayerCore br f tint tr msaa b).drawData =
    (Batcher.intermediateLayerCore br f tint tr msaa b').drawData := by
  obtain ⟨h1, h2, h3, h4, h5, h6⟩ := Batcher.drawData_ext h
  unfold Batcher.intermediateLayerCore
  cases br with
  | none => exact h
  | some localRect =>
    dsimp only
    rw [h5]
    have hm : ∀ (x : Batcher) (i : ℕ),
        (if msaa then x.markLastMsaa i else x).drawData = x.drawData := by
      intro x i
      split <;> rfl
    refine Batcher.popTransform_congr
      (Batcher.addQuad_congr _ (Batcher.pushRaw_congr _ ?_))
    rw [Batcher.setSource_drawData, Batcher.setSource_drawData,
      Batcher.setTarget_drawData, Batcher.setTarget_drawData, hm, hm,
      Batcher.flush_drawData, Batcher.flush_drawData]
    refine Batcher.popTransform_congr
      (hf _ _ (Batcher.pushRaw_congr _ (Batcher.popTransform_congr
        (Batcher.cmdClearRect_congr _ (Batcher.pushRaw_congr _ ?_)))))
    rw [Batcher.setTarget_drawData, Batcher.setTarget_drawData]
    exact (Batcher.allocIntermediate_congr _ _
      (by rw [Batcher.flush_drawData, Batcher.flush_drawData, h])).1

mutual

theorem Batcher.dispatchCmd_congr (env : TextureCacheView) :
    ∀ (c : Command) {b b' : Batcher}, b.drawData = b'.drawData →
      (Batcher.dispatchCmd env c b).drawData =
        (Batcher.dispatchCmd env c b').drawData
  | Command.clearRect r, _, _, h => Batcher.cmdClearRect_congr r h
  | Command.drawRect r, _, _, h => Batcher.cmdDrawRect_congr env r h
  | Command.drawGlyph g, _, _, h => Batcher.cmdDrawGlyph_congr env g h
  | Command.drawLayer cs tint sc tr, b, b', h => by
    unfold Batcher.dispatchCmd
    dsimp only
    have h0 : (b.setClear false).drawData = (b'.setClear false).drawData := by
      rw [Batcher.setClear_drawData, Batcher.setClear_drawData, h]
    split
    · split
      · rw [Batcher.flush_drawData, Batcher.flush_drawData]
        exact Batcher.dispatchList_congr env cs h0
      · exact Batcher.popTransform_congr
          (by
            rw [Batcher.flush_drawData, Batcher.flush_drawData]
            exact Batcher.dispatchList_congr env cs
              (Batcher.pushTransform_congr tr h0))
    · exact Batcher.intermediateLayerCore_congr _ _ tint tr _
        (fun x x' hx => by
          rw [Batcher.flush_drawData, Batcher.flush_drawData]
          exact Batcher.dispatchList_congr env cs hx) h0
  | Command.fillPath p, _, _, h => Batcher.cmdFillPath_congr env p h
  | Command.strokePath p, _, _, h => Batcher.cmdStrokePath_congr env p h

theorem Batcher.dispatchList_congr (env : TextureCacheView) :
    ∀ (cs : List Command) {b b' : Batcher}, b.drawData = b'.drawData →
      (Batcher.dispatchList env cs b).drawData =
        (Batcher.dispatchList env cs b').drawData
  | [], _, _, h => h
  | c :: rest, _, _, h =>
    Batcher.dispatchList_congr env rest (Batcher.dispatchCmd_congr env c h)

end

theorem Batcher.dispatchList_append (env : TextureCacheView) :
    ∀ (xs ys : List Command) (b : Batcher),
      Batcher.dispatchList env (xs ++ ys) b =
        Batcher.dispatchList env ys (Batcher.dispatchList env xs b)
  | [], _, _ => rfl
  | c :: xs, ys, b => Batcher.dispatchList_append env xs ys (Batcher.dispatchCmd env c b)

/-- C1 (amended): a fast-path layer (opaque-white tint, no scissor; stated
here with identity transform, the transform only composing otherwise)
dispatches its children inline: the vertices, indices, instances,
intermediates and transform stack produced are exactly those of inlining the
children at the layer's position — in particular no `Intermediate` is ever
allocated for the layer. The batch list, however, may differ: the layer
forces the clear flag to false and flushes after its children, which can
split batch boundaries (see the counterexample). -/
theorem fastpath_layer_inlines_draw_data (env : TextureCacheView)
    (pre cs post : List Command) (b : Batcher) :
    (Batcher.dispatchList env
        (pre ++ Command.drawLayer cs Color.WHITE none Affine2.IDENTITY :: post)
        b).drawData =
      (Batcher.dispatchList env (pre ++ (cs ++ post)) b).drawData := by
  rw [Batcher.dispatchList_append, Batcher.dispatchList_append]
  show (Batcher.dispatchList env post
      (Batcher.dispatchCmd env
        (Command.drawLayer cs Color.WHITE none Affine2.IDENTITY)
        (Batcher.dispatchList env pre b))).drawData = _
  rw [Batcher.dispatchList_append]
  apply Batcher.dispatchList_congr env post
  unfold Batcher.dispatchCmd
  dsimp only
  rw [if_pos ⟨rfl, rfl⟩, if_pos rfl, Batcher.flush_drawData]
  exact Batcher.dispatchList_congr env cs
    (Batcher.setClear_drawData false (Batcher.dispatchList env pre b))

/-- C1 (counterexample): wrapping the middle of three identical solid rects in
a fast-path layer yields 2 batches where inlining yields 1 — the batch
sequence is not exactly the inlined one (the trailing flush of the layer's
`dispatch_commands` splits the batch; the geometry itself is identical, as
the amended theorem shows in general). -/
theorem fastpath_layer_batch_split_cex :
    (Batcher.prepare unresolvedView ⟨7, layeredCmds⟩
        (Batcher.new 1024)).batches.length = 2 ∧
    (Batcher.prepare unresolvedView ⟨7, inlinedCmds⟩
        (Batcher.new 1024)).batches.length = 1 := by
  exact ⟨by decide, by decide⟩

theorem chained_snoc : ∀ (l : List Batch) (n : ℕ) (bt : Batch),
    Chained n l → bt.indexStart = chainEnd n l → bt.indexStart < bt.indexEnd →
    Chained n (l ++ [bt])
  | [], n, bt, _, h2, h3 => ⟨h2, h3, trivial⟩
  | b0 :: rest, n, bt, h1, h2, h3 => by
    obtain ⟨ha, hb, hc⟩ := h1
    exact ⟨ha, hb, chained_snoc rest b0.indexEnd bt hc h2 h3⟩

theorem chainEnd_snoc : ∀ (l : List Batch) (n : ℕ) (bt : Batch),
    chainEnd n (l ++ [bt]) = bt.indexEnd
  | [], _, _ => rfl
  | b0 :: rest, _, bt => chainEnd_snoc rest b0.indexEnd bt

theorem chained_of_ranges : ∀ (l l' : List Batch) (n : ℕ),
    l.map Batch.rangePair = l'.map Batch.rangePair → Chained n l → Chained n l'
  | [], [], _, _, h => h
  | b0 :: r, b0' :: r', n, hm, hc => by
    simp only [List.map_cons, List.cons.injEq, Batch.rangePair,
      Prod.mk.injEq] at hm
    obtain ⟨⟨hs, he⟩, hrest⟩ := hm
    obtain ⟨h1, h2, h3⟩ := hc
    exact ⟨by rw [← hs]; exact h1, by rw [← hs, ← he]; exact h2,
      by rw [← he]; exact chained_of_ranges r r' _ hrest h3⟩
  | [], _ :: _, _, hm, _ => by simp at hm
  | _ :: _, [], _, hm, _ => by simp at hm

theorem chainEnd_of_ranges : ∀ (l l' : List Batch) (n : ℕ),
    l.map Batch.rangePair = l'.map Batch.rangePair → chainEnd n l = chainEnd n l'
  | [], [], _, _ => rfl
  | b0 :: r, b0' :: r', n, hm => by
    simp only [List.map_cons, List.cons.injEq, Batch.rangePair,
      Prod.mk.injEq] at hm
    obtain ⟨⟨hs, he⟩, hrest⟩ := hm
    show chainEnd b0.indexEnd r = chainEnd b0'.indexEnd r'
    rw [he]
    exact chainEnd_of_ranges r r' _ hrest
  | [], _ :: _, _, hm => by simp at hm
  | _ :: _, [], _, hm => by simp at hm

theorem markMsaaRev_ranges (i : ℕ) : ∀ (l : List Batch),
    (markMsaaRev i l).map Batch.rangePair = l.map Batch.rangePair
  | [] => rfl
  | bt :: rest => by
    unfold markMsaaRev
    split
    · simp [Batch.rangePair]
    · simp [Batch.rangePair, markMsaaRev_ranges i rest]

theorem Batcher.BatchInv.mono {b b' : Batcher} (hb : b.BatchInv)
    (hbat : b'.batches = b.batches) (hlast : b'.lastIndex = b.lastIndex)
    (hlen : b.indices.length ≤ b'.indices.length) : b'.BatchInv := by
  obtain ⟨c1, c2, c3⟩ := hb
  exact ⟨by rw [hbat]; exact c1, by rw [hbat, hlast]; exact c2,
    by rw [hlast]; omega⟩

theorem Batcher.BatchInv.flush_inv {b : Batcher} (hb : b.BatchInv) : b.flush.BatchInv := by
  obtain ⟨c1, c2, c3⟩ := hb
  unfold Batcher.flush
  split
  · exact ⟨c1, c2, c3⟩
  · rename_i hlt
    refine ⟨?_, ?_, ?_⟩
    · exact chained_snoc _ _ _ c1 c2.symm (by simp only; omega)
    · simp [chainEnd_snoc]
    · simp

theorem Batcher.BatchInv.setClear_inv {b : Batcher} (hb : b.BatchInv) (v : Bool) :
    (b.setClear v).BatchInv := by
  unfold Batcher.setClear
  split
  · exact (Batcher.BatchInv.flush_inv hb).mono rfl rfl (le_refl _)
  · exact hb.mono rfl rfl (le_refl _)

theorem Batcher.BatchInv.setSource_inv {b : Batcher} (hb : b.BatchInv) (s : Source) :
    (b.setSource s).BatchInv := by
  unfold Batcher.setSource
  split
  · exact (Batcher.BatchInv.flush_inv hb).mono rfl rfl (le_refl _)
  · exact hb.mono rfl rfl (le_refl _)

theorem Batcher.BatchInv.setTarget_inv {b : Batcher} (hb : b.BatchInv) (t : Target) :
    (b.setTarget t).BatchInv := by
  unfold Batcher.setTarget
  split
  · exact (Batcher.BatchInv.flush_inv hb).mono rfl rfl (le_refl _)
  · exact hb.mono rfl rfl (le_refl _)

theorem Batcher.BatchInv.addQuad_inv {b : Batcher} (hb : b.BatchInv) (q : Quad) :
    (b.addQuad q).BatchInv :=
  hb.mono rfl rfl (by simp [Batcher.addQuad, Batcher.addVertex])

theorem Batcher.BatchInv.addInstance_inv {b : Batcher} (hb : b.BatchInv) (i : Instance) :
    (b.addInstance i).1.BatchInv := by
  unfold Batcher.addInstance
  split
  · exact (Batcher.BatchInv.flush_inv hb).mono rfl rfl (le_refl _)
  · exact hb.mono rfl rfl (le_refl _)

theorem Batcher.BatchInv.drawMesh_inv {b : Batcher} (hb : b.BatchInv) (origin : Vec2)
    (mesh : Mesh) (color : Color) (texMin texMax : Vec2) :
    (Batcher.drawMesh origin mesh color texMin texMax b).BatchInv := by
  unfold Batcher.drawMesh
  cases mesh.boundingRect
  · exact hb
  · exact hb.mono rfl rfl (by simp)

theorem Batcher.BatchInv.allocIntermediate_inv {b : Batcher} (hb : b.BatchInv)
    (size : UVec2) (msaa : Bool) : (b.allocIntermediate size msaa).1.BatchInv :=
  hb.mono rfl rfl (le_refl _)

theorem Batcher.BatchInv.pushTransform_inv {b : Batcher} (hb : b.BatchInv) (t : Affine2) :
    (b.pushTransform t).BatchInv :=
  hb.mono rfl rfl (le_refl _)

theorem Batcher.BatchInv.popTransform_inv {b : Batcher} (hb : b.BatchInv) :
    b.popTransform.BatchInv :=
  hb.mono rfl rfl (le_refl _)

theorem Batcher.BatchInv.pushRaw_inv {b : Batcher} (hb : b.BatchInv) (t : Affine2) :
    (b.pushRaw t).BatchInv :=
  hb.mono rfl rfl (le_refl _)

theorem Batcher.BatchInv.markLastMsaa_inv {b : Batcher} (hb : b.BatchInv) (i : ℕ) :
    (b.markLastMsaa i).BatchInv := by
  obtain ⟨c1, c2, c3⟩ := hb
  have hr : (b.markLastMsaa i).batches.map Batch.rangePair =
      b.batches.map Batch.rangePair := by
    unfold Batcher.markLastMsaa
    rw [List.map_reverse, markMsaaRev_ranges i, List.map_reverse,
      List.reverse_reverse]
  exact ⟨chained_of_ranges _ _ _ hr.symm c1,
    (chainEnd_of_ranges _ _ 0 hr).trans c2, c3⟩

theorem Batcher.BatchInv.cmdClearRect_inv {b : Batcher} (hb : b.BatchInv) (r : ClearRect) :
    (b.cmdClearRect r).BatchInv := by
  unfold Batcher.cmdClearRect
  exact ((hb.setClear_inv true).setSource_inv Source.white).addQuad_inv _

theorem Batcher.BatchInv.cmdDrawRect_inv {b : Batcher} (hb : b.BatchInv)
    (env : TextureCacheView) (r : DrawRect) : (b.cmdDrawRect env r).BatchInv := by
  unfold Batcher.cmdDrawRect
  dsimp only
  split
  · exact ((hb.setClear_inv false).setSource_inv _).addQuad_inv _
  · exact (((hb.setClear_inv false).setSource_inv _).addInstance_inv _).addQuad_inv _

theorem Batcher.BatchInv.cmdDrawGlyph_inv {b : Batcher} (hb : b.BatchInv)
    (env : TextureCacheView) (g : DrawGlyph) : (b.cmdDrawGlyph env g).BatchInv := by
  unfold Batcher.cmdDrawGlyph
  dsimp only
  cases env.getGlyph
      { font := g.font, glyph := g.glyph, size := g.size,
        subpixelBin := SubpixelBin.new g.pos }
  · exact hb.setClear_inv false
  · exact ((hb.setClear_inv false).setSource_inv _).addQuad_inv _

theorem Batcher.BatchInv.cmdFillPath_inv {b : Batcher} (hb : b.BatchInv)
    (env : TextureCacheView) (p : FillPath) : (b.cmdFillPath env p).BatchInv := by
  unfold Batcher.cmdFillPath
  dsimp only
  exact (hb.setSource_inv _).drawMesh_inv _ _ _ _ _

theorem Batcher.BatchInv.cmdStrokePath_inv {b : Batcher} (hb : b.BatchInv)
    (env : TextureCacheView) (p : StrokePath) :
    (b.cmdStrokePath env p).BatchInv := by
  unfold Batcher.cmdStrokePath
  dsimp only
  exact (hb.setSource_inv _).drawMesh_inv _ _ _ _ _

theorem Batcher.BatchInv.msaaIf_inv {x : Batcher} (hx : x.BatchInv) (c : Bool)
    (i : ℕ) : (if c then x.markLastMsaa i else x).BatchInv := by
  split
  · exact hx.markLastMsaa_inv i
  · exact hx

theorem Batcher.BatchInv.intermediateLayerCore_inv {b : Batcher} (hb : b.BatchInv)
    (br : Option Rect) (f : Batcher → Batcher) (tint : Color) (tr : Affine2)
    (msaa : Bool) (hf : ∀ x : Batcher, x.BatchInv → (f x).BatchInv) :
    (Batcher.intermediateLayerCore br f tint tr msaa b).BatchInv := by
  unfold Batcher.intermediateLayerCore
  cases br with
  | none => exact hb
  | some localRect =>
    dsimp only
    exact ((((((hf _
      (((((hb.flush_inv.allocIntermediate_inv _ msaa).setTarget_inv
        _).pushRaw_inv _).cmdClearRect_inv
        _).popTransform_inv.pushRaw_inv _)).popTransform_inv.flush_inv.msaaIf_inv
      msaa _).setTarget_inv _).setSource_inv _).pushRaw_inv
      _).addQuad_inv _).popTransform_inv

mutual

theorem Batcher.dispatchCmd_inv (env : TextureCacheView) :
    ∀ (c : Command) {b : Batcher}, b.BatchInv →
      (Batcher.dispatchCmd env c b).BatchInv
  | Command.clearRect r, _, hb => hb.cmdClearRect_inv r
  | Command.drawRect r, _, hb => hb.cmdDrawRect_inv env r
  | Command.drawGlyph g, _, hb => hb.cmdDrawGlyph_inv env g
  | Command.drawLayer cs tint sc tr, b, hb => by
    unfold Batcher.dispatchCmd
    dsimp only
    split
    · split
      · exact Batcher.BatchInv.flush_inv
          (Batcher.dispatchList_inv env cs (hb.setClear_inv false))
      · exact (Batcher.BatchInv.flush_inv (Batcher.dispatchList_inv env cs
          ((hb.setClear_inv false).pushTransform_inv tr))).popTransform_inv
    · exact Batcher.BatchInv.intermediateLayerCore_inv (hb.setClear_inv false) _ _ tint tr _
        (fun x hx => Batcher.BatchInv.flush_inv (Batcher.dispatchList_inv env cs hx))
  | Command.fillPath p, _, hb => hb.cmdFillPath_inv env p
  | Command.strokePath p, _, hb => hb.cmdStrokePath_inv env p

theorem Batcher.dispatchList_inv (env : TextureCacheView) :
    ∀ (cs : List Command) {b : Batcher}, b.BatchInv →
      (Batcher.dispatchList env cs b).BatchInv
  | [], _, hb => hb
  | c :: rest, _, hb =>
    Batcher.dispatchList_inv env rest (Batcher.dispatchCmd_inv env c hb)

end

theorem Batcher.BatchInv.prepare_inv {b : Batcher} (hb : b.BatchInv)
    (env : TextureCacheView) (dl : DrawList) : (Batcher.prepare env dl b).BatchInv := by
  unfold Batcher.prepare
  split
  · exact hb
  · apply Batcher.BatchInv.flush_inv
    split
    · unfold Batcher.drawIntermediateLayer
      exact Batcher.BatchInv.intermediateLayerCore_inv (hb.setTarget_inv _) _ _ _ _ _
        (fun x hx => Batcher.BatchInv.flush_inv (Batcher.dispatchList_inv env _ hx))
    · exact Batcher.BatchInv.flush_inv
        (Batcher.dispatchList_inv env _ (hb.setTarget_inv _))

theorem Batcher.prepareAll_inv (env : TextureCacheView) :
    ∀ (lists : List DrawList) {b : Batcher}, b.BatchInv →
      (Batcher.prepareAll env lists b).BatchInv
  | [], _, hb => hb
  | dl :: rest, _, hb =>
    Batcher.prepareAll_inv env rest (hb.prepare_inv env dl)

theorem Batcher.new_inv (m : ℕ) : (Batcher.new m).BatchInv :=
  ⟨trivial, rfl, le_refl 0⟩

/-- C8: across all draw lists one batcher processes over a fresh scratch
buffer, the batches' index ranges are contiguous and non-overlapping in the
shared index buffer: the first range starts at 0, every range is nonempty,
and each subsequent range starts exactly where the previous one ends. -/
theorem batch_ranges_chained (env : TextureCacheView) (m : ℕ)
    (lists : List DrawList) :
    Chained 0 (Batcher.prepareAll env lists (Batcher.new m)).batches :=
  (Batcher.prepareAll_inv env lists (Batcher.new_inv m)).1

theorem imagesMono_refl : ∀ (l : List (ℕ × ImageEntry)), imagesMono l l
  | [] => trivial
  | (_, _) :: rest => ⟨rfl, le_refl _, le_refl _, imagesMono_refl rest⟩

theorem imagesMono_trans :
    ∀ (l1 l2 l3 : List (ℕ × ImageEntry)), imagesMono l1 l2 → imagesMono l2 l3 →
      imagesMono l1 l3
  | [], [], [], _, _ => trivial
  | [], [], _ :: _, _, h23 => h23.elim
  | [], _ :: _, _, h12, _ => h12.elim
  | _ :: _, [], _, h12, _ => h12.elim
  | _ :: _, _ :: _, [], _, h23 => h23.elim
  | (_, _) :: r1, (_, _) :: r2, (_, _) :: r3, h12, h23 =>
    ⟨h12.1.trans h23.1, h12.2.1.trans h23.2.1, h12.2.2.1.trans h23.2.2.1,
      imagesMono_trans r1 r2 r3 h12.2.2.2 h23.2.2.2⟩

theorem imagesMono_set :
    ∀ (l : List (ℕ × ImageEntry)) (k : ℕ) (e e' : ImageEntry),
      assocFind k l = some e →
      e.requestedSize.x ≤ e'.requestedSize.x →
      e.requestedSize.y ≤ e'.requestedSize.y →
      imagesMono l (assocSet k e' l)
  | [], _, _, _, hfind, _, _ => by simp [assocFind] at hfind
  | (k1, e1) :: rest, k, e, e', hfind, hx, hy => by
    unfold assocFind at hfind
    unfold assocSet
    by_cases hk : k1 = k
    · rw [if_pos hk] at hfind
      rw [if_pos hk]
      obtain rfl : e1 = e := Option.some.inj hfind
      exact ⟨rfl, hx, hy, imagesMono_refl rest⟩
    · rw [if_neg hk] at hfind
      rw [if_neg hk]
      exact ⟨rfl, le_refl _, le_refl _, imagesMono_set rest k e e' hfind hx hy⟩

theorem applyImageSize_mono (env : ScaleEnv) (size : Vec2) (fill : FillImage)
    (tr : Affine2) (c : TextureCache) :
    imagesMono c.images (TextureCache.applyImageSize env size fill tr c).images := by
  unfold TextureCache.applyImageSize
  dsimp only
  split
  · exact imagesMono_refl c.images
  · rename_i image heq
    split
    · exact imagesMono_refl c.images
    · exact imagesMono_set c.images fill.image image _ heq
        (Nat.le_max_left _ _) (Nat.le_max_left _ _)

mutual

theorem TextureCache.setImageSizesFromCommands_mono (env : ScaleEnv) :
    ∀ (cmds : List Command) (tr : Affine2) (c : TextureCache),
      imagesMono c.images
        (TextureCache.setImageSizesFromCommands env cmds tr c).images
  | [], _, c => imagesMono_refl c.images
  | cmd :: rest, tr, c =>
    imagesMono_trans _ _ _
      (TextureCache.setImageSizesFromCommand_mono env cmd tr c)
      (TextureCache.setImageSizesFromCommands_mono env rest tr _)

theorem TextureCache.setImageSizesFromCommand_mono (env : ScaleEnv) :
    ∀ (cmd : Command) (tr : Affine2) (c : TextureCache),
      imagesMono c.images
        (TextureCache.setImageSizesFromCommand env cmd tr c).images
  | Command.drawLayer cs _ _ ltr, tr, c =>
    TextureCache.setImageSizesFromCommands_mono env cs (ltr * tr) c
  | Command.clearRect _, _, c => imagesMono_refl c.images
  | Command.drawGlyph _, _, c => imagesMono_refl c.images
  | Command.drawRect rect, tr, c => by
    unfold TextureCache.setImageSizesFromCommand
    split
    · exact applyImageSize_mono _ _ _ _ _
    · exact imagesMono_refl c.images
  | Command.fillPath p, tr, c => by
    unfold TextureCache.setImageSizesFromCommand
    split
    · exact applyImageSize_mono _ _ _ _ _
    · exact imagesMono_refl c.images
  | Command.strokePath p, tr, c => by
    unfold TextureCache.setImageSizesFromCommand
    split
    · exact applyImageSize_mono _ _ _ _ _
    · exact imagesMono_refl c.images

end

theorem TextureCache.loadImageStep_resolved (env : ImageLoadEnv) (e : ImageEntry)
    (pool : TextureAtlasPool) (ida : TextureIdAllocator)
    (cmds : List TextureCommand)
    (h : e.texture.isSome = true ∨ e.allocId.isSome = true) :
    TextureCache.loadImageStep env e pool ida cmds =
      Except.ok (e, pool, ida, cmds) := by
  unfold TextureCache.loadImageStep
  rw [if_pos h]

theorem TextureCache.loadImagesGo_resolved (env : ImageLoadEnv) :
    ∀ (l : List (ℕ × ImageEntry)) (pool : TextureAtlasPool)
      (ida : TextureIdAllocator) (cmds : List TextureCommand)
      (out : List (ℕ × ImageEntry) × TextureAtlasPool × TextureIdAllocator ×
        List TextureCommand)
      (hgo : TextureCache.loadImagesGo env l pool ida cmds = Except.ok out)
      (k : ℕ) (e : ImageEntry) (hfind : assocFind k l = some e)
      (hres : e.texture.isSome = true ∨ e.allocId.isSome = true),
      assocFind k out.1 = some e
  | [], _, _, _, _, _, _, _, hfind, _ => by simp [assocFind] at hfind
  | (k1, e1) :: rest, pool, ida, cmds, out, hgo, k, e, hfind, hres => by
    unfold TextureCache.loadImagesGo at hgo
    unfold assocFind at hfind
    by_cases hk : k1 = k
    · rw [if_pos hk] at hfind
      obtain rfl : e1 = e := Option.some.inj hfind
      rw [TextureCache.loadImageStep_resolved env e1 pool ida cmds hres] at hgo
      dsimp only at hgo
      split at hgo
      · exact Except.noConfusion hgo
      · rename_i rest1 pool1 ida1 cmds1 hrec
        obtain rfl : ((k1, e1) :: rest1, pool1, ida1, cmds1) = out :=
          Except.ok.inj hgo
        dsimp only
        unfold assocFind
        rw [if_pos hk]
    · rw [if_neg hk] at hfind
      split at hgo
      · exact Except.noConfusion hgo
      · rename_i e2 pool1 ida1 cmds1 hstep
        split at hgo
        · exact Except.noConfusion hgo
        · rename_i rest1 pool2 ida2 cmds2 hrec
          obtain rfl : ((k1, e2) :: rest1, pool2, ida2, cmds2) = out :=
            Except.ok.inj hgo
          dsimp only
          unfold assocFind
          rw [if_neg hk]
          exact TextureCache.loadImagesGo_resolved env rest pool1 ida1 cmds1
            (rest1, pool2, ida2, cmds2) hrec k e hfind hres

theorem TextureCache.loadImages_resolved (env : ImageLoadEnv) (c : TextureCache)
    (cmds : List TextureCommand) (out : TextureCache × List TextureCommand)
    (h : TextureCache.loadImages env c cmds = Except.ok out) (k : ℕ)
    (e : ImageEntry) (hfind : assocFind k c.images = some e)
    (hres : e.texture.isSome = true ∨ e.allocId.isSome = true) :
    assocFind k out.1.images = some e := by
  unfold TextureCache.loadImages at h
  split at h
  · exact Except.noConfusion h
  · rename_i images pool ida cmds1 hgo
    have hout := Except.ok.inj h
    rw [← hout]
    exact TextureCache.loadImagesGo_resolved env c.images c.atlases
      c.idAllocator cmds (images, pool, ida, cmds1) hgo k e hfind hres

/-- C7: an image entry's `requested_size` is a monotonic high-water mark —
every usage-scan pass (`set_image_sizes_from_commands`) only raises it with a
componentwise maximum, never lowering either component — and an image already
resolved to a dedicated texture or an atlas region is skipped unchanged by a
later load pass: `load_images` neither decodes it again nor touches the atlas
pool, the id allocator, or the texture command list on its behalf, and the
entry survives the pass verbatim. -/
theorem requested_size_monotone :
    (∀ (env : ScaleEnv) (cmds : List Command) (tr : Affine2) (c : TextureCache),
      imagesMono c.images
        (TextureCache.setImageSizesFromCommands env cmds tr c).images) ∧
    (∀ (env : ImageLoadEnv) (e : ImageEntry) (pool : TextureAtlasPool)
      (ida : TextureIdAllocator) (cmds : List TextureCommand),
      e.texture.isSome = true ∨ e.allocId.isSome = true →
      TextureCache.loadImageStep env e pool ida cmds =
        Except.ok (e, pool, ida, cmds)) ∧
    (∀ (env : ImageLoadEnv) (c : TextureCache) (cmds : List TextureCommand)
      (out : TextureCache × List TextureCommand),
      TextureCache.loadImages env c cmds = Except.ok out →
      ∀ (k : ℕ) (e : ImageEntry), assocFind k c.images = some e →
        e.texture.isSome = true ∨ e.allocId.isSome = true →
        assocFind k out.1.images = some e) :=
  ⟨fun env cmds tr c => TextureCache.setImageSizesFromCommands_mono env cmds tr c,
   fun env e pool ida cmds h =>
     TextureCache.loadImageStep_resolved env e pool ida cmds h,
   fun env c cmds out h k e hfind hres =>
     TextureCache.loadImages_resolved env c cmds out h k e hfind hres⟩

theorem requested_size_monotone_witness :
    TextureCache.loadImageStep failImageEnv resolvedEntry ⟨[], 0⟩ ⟨⟨7⟩⟩ [] =
      Except.ok (resolvedEntry, ⟨[], 0⟩, ⟨⟨7⟩⟩, []) ∧
    assocFind 0 c7cache.images = some resolvedEntry :=
  ⟨requested_size_monotone.2.1 failImageEnv resolvedEntry ⟨[], 0⟩ ⟨⟨7⟩⟩ []
      (Or.inl rfl),
   requested_size_monotone.2.2 failImageEnv c7cache [] (c7cache, []) rfl 0
      resolvedEntry rfl (Or.inl rfl)⟩

end Ohm
